import Mathlib

/-!
Shallow embedding of the cohort-analytics core of the letterboxd-scraper
repository, together with theorems checking the natural-language
specification against it.

Conventions of the embedding:
* Python floats are modelled as `ℚ` (all arithmetic appearing in the claims
  is field arithmetic, exact over the rationals).
* Python ints are `ℕ` (counts, ids) or `ℤ` (values that can be negative or
  that the code tests for truthiness).
* `None` becomes `Option.none`; Python truthiness of optional ints is made
  explicit via `truthyInt` below.
* The two transcendental functions used by the ranking engine, `math.sqrt`
  (inside `statistics.pstdev`) and `math.log10`, take irrational values on
  rational inputs, so they are abstracted as explicit function parameters
  `sq : ℚ → ℚ` and `lg : ℕ → ℚ`; every theorem quantifies over them, hence
  holds in particular for the real square root and logarithm.
* SQL queries are modelled as list filters over an explicit table of rows;
  SQLAlchemy sessions become explicit state records.
-/

namespace LetterboxdSpec

/-! ## Generic helpers -/

/-- Byte-wise lexicographic comparison of char lists (Python string `<` on
the code points of the two strings). -/
def charListLt : List Char → List Char → Bool
  | [], [] => false
  | [], _ :: _ => true
  | _ :: _, [] => false
  | a :: as, b :: bs =>
    if a.toNat < b.toNat then true
    else if b.toNat < a.toNat then false
    else charListLt as bs

/-- Python string comparison, code-point lexicographic. -/
def strLt (a b : String) : Bool := charListLt a.data b.data

/-- `_clamp` from services/rankings.py: `max(lower, min(upper, value))`. -/
def clampQ (value lower upper : ℚ) : ℚ := max lower (min upper value)

/-- `_safe_ratio` from services/rankings.py. -/
def safe_ratio (numerator denominator : ℚ) : ℚ :=
  if denominator ≤ 0 then 0 else numerator / denominator

/-- `statistics.fmean`: arithmetic mean. -/
def fmean (xs : List ℚ) : ℚ := xs.sum / xs.length

/-- Population variance (`statistics.pstdev` squared): mean squared deviation. -/
def pvariance (xs : List ℚ) : ℚ :=
  ((xs.map (fun x => (x - fmean xs) ^ 2)).sum) / xs.length

/-- `statistics.pstdev`, with the square root abstracted as `sq`. -/
def pstdev (sq : ℚ → ℚ) (xs : List ℚ) : ℚ := sq (pvariance xs)

/-- `_z_scores` from services/rankings.py. -/
def z_scores (sq : ℚ → ℚ) (values : List ℚ) : List ℚ :=
  if values.length = 0 then []
  else if values.length = 1 then [0]
  else
    let mean_val := fmean values
    let spread := pstdev sq values
    if spread = 0 then values.map (fun _ => 0)
    else values.map (fun value => (value - mean_val) / spread)

/-- Z-score of a value within a population, as the spec words it:
`(v - populationMean) / populationStdDev`, and `0` when the standard
deviation is `0`. -/
def spec_zscore (sq : ℚ → ℚ) (v : ℚ) (population : List ℚ) : ℚ :=
  if pstdev sq population = 0 then 0
  else (v - fmean population) / pstdev sq population

/-! ## Ranking engine (services/rankings.py) -/

/-- One row of the `cohort_film_stats` aggregate table, with the NULL-able
columns already coalesced the way both consumers coalesce them
(`COALESCE(x, 0)` in SQL, `or 0` / `if ... is not None else 0.0` in Python). -/
structure CohortFilmStat where
  cohort_id : ℕ
  film_id : ℕ
  watchers : ℕ
  avg_rating : ℚ
  likes_count : ℕ
  favorites_count : ℕ
  high_rating_pct : ℚ
  low_rating_pct : ℚ
  count_rating_gte_4_5 : ℕ
  count_rating_4_0_4_5 : ℕ
  count_rating_3_5_4_0 : ℕ
  count_rating_3_0_3_5 : ℕ
  count_rating_2_5_3_0 : ℕ
  count_rating_lt_2_5 : ℕ
deriving DecidableEq, Inhabited

/-- `classify_distribution_label` from services/rankings.py. -/
def classify_distribution_label (watchers c_gte_4_5 c_4_0_4_5 c_3_5_4_0
    c_3_0_3_5 c_2_5_3_0 c_lt_2_5 : ℕ) : String × ℚ :=
  if watchers ≤ 0 then ("unknown", 0)
  else
    let w : ℚ := watchers
    let pct_extreme := (c_gte_4_5 : ℚ) / w
    let pct_high := (c_4_0_4_5 : ℚ) / w
    let pct_mid_high := (c_3_5_4_0 : ℚ) / w
    let pct_mid_low := (c_3_0_3_5 : ℚ) / w
    let pct_low_mid := (c_2_5_3_0 : ℚ) / w
    let pct_low := (c_lt_2_5 : ℚ) / w
    let pct_high_total := pct_extreme + pct_high
    let pct_low_total := pct_low_mid + pct_low
    if 0.4 ≤ pct_extreme ∧ pct_low_total ≤ 0.1 then ("strong-left", 0.30)
    else if 0.6 ≤ pct_high_total ∧ pct_low_total ≤ 0.15 then ("left", 0.15)
    else if 0.45 ≤ pct_low_total ∧ pct_high_total ≤ 0.2 then ("right", -0.15)
    else if 0.35 ≤ pct_low_total ∧ 0.25 ≤ pct_high_total then ("bimodal-low-high", 0.05)
    else if 0.25 ≤ pct_mid_low ∧ 0.25 ≤ pct_mid_high then ("bimodal-mid", -0.05)
    else if 0.6 ≤ pct_mid_high + pct_mid_low ∧ pct_low_total ≤ 0.2 then ("balanced", 0.0)
    else ("mixed", 0.0)

/-- `classify_distribution_label` applied to a stats row. -/
def classify_row (row : CohortFilmStat) : String × ℚ :=
  classify_distribution_label row.watchers row.count_rating_gte_4_5
    row.count_rating_4_0_4_5 row.count_rating_3_5_4_0 row.count_rating_3_0_3_5
    row.count_rating_2_5_3_0 row.count_rating_lt_2_5

/-- Result row of `compute_bayesian` (a `RankingResult` whose metadata dict
holds the watcher count and film average). -/
structure BayesianResult where
  film_id : ℕ
  score : ℚ
  rank : ℕ
  watchers : ℕ
  avg_rating : ℚ
deriving DecidableEq, Inhabited

/-- The `WHERE cohort_id = :cohort_id` filter of the bayesian query. -/
def bayes_rows (table : List CohortFilmStat) (cohort_id : ℕ) : List CohortFilmStat :=
  table.filter (fun row => row.cohort_id == cohort_id)

/-- The `AVG(avg_rating)` subquery over the same cohort. -/
def cohort_avg (table : List CohortFilmStat) (cohort_id : ℕ) : ℚ :=
  fmean ((bayes_rows table cohort_id).map (fun row => row.avg_rating))

/-- The bayesian score expression of the SQL query in `compute_bayesian`. -/
def bayes_score (m_value : ℕ) (cavg : ℚ) (row : CohortFilmStat) : ℚ :=
  ((row.watchers : ℚ) / ((row.watchers : ℚ) + (m_value : ℚ))) * row.avg_rating
    + ((m_value : ℚ) / ((row.watchers : ℚ) + (m_value : ℚ))) * cavg

/-- `ORDER BY score DESC`: `a` may precede `b` iff `a`'s score is at least
`b`'s. -/
def bayesLe (a b : CohortFilmStat × ℚ) : Prop := b.2 ≤ a.2

instance : DecidableRel bayesLe := fun a b => inferInstanceAs (Decidable (b.2 ≤ a.2))

/-- The `enumerate(rows, start=1)` loop of `compute_bayesian`. -/
def bayes_ranked : ℕ → List (CohortFilmStat × ℚ) → List BayesianResult
  | _, [] => []
  | n, e :: es =>
    ⟨e.1.film_id, e.2, n, e.1.watchers, e.1.avg_rating⟩ :: bayes_ranked (n + 1) es

/-- `compute_bayesian` from services/rankings.py: score every aggregate row of
the cohort with the shrinkage formula, order by score descending, and number
ranks from 1. -/
def compute_bayesian (table : List CohortFilmStat) (cohort_id m_value : ℕ) :
    List BayesianResult :=
  let cavg := cohort_avg table cohort_id
  let scored := (bayes_rows table cohort_id).map (fun row => (row, bayes_score m_value cavg row))
  bayes_ranked 1 (List.insertionSort bayesLe scored)

/-- A scored film of `compute_cohort_affinity` before ranking: the
`(film_id, score, metadata)` tuple with the metadata dict made explicit. -/
structure AffinityScored where
  film_id : ℕ
  score : ℚ
  watchers : ℕ
  avg_rating : ℚ
  favorite_rate : ℚ
  like_rate : ℚ
  distribution_label : String
  consensus_strength : ℚ
deriving DecidableEq, Inhabited

/-- Result row of `compute_cohort_affinity`. -/
structure AffinityResult where
  film_id : ℕ
  score : ℚ
  rank : ℕ
  watchers : ℕ
  avg_rating : ℚ
  favorite_rate : ℚ
  like_rate : ℚ
  distribution_label : String
  consensus_strength : ℚ
deriving DecidableEq, Inhabited

/-- The `WHERE cohort_id = :cohort_id AND watchers >= :watchers_floor` filter,
after `watchers_floor = max(1, watchers_floor)`. -/
def affinity_rows (table : List CohortFilmStat) (cohort_id watchers_floor : ℕ) :
    List CohortFilmStat :=
  table.filter (fun row =>
    row.cohort_id == cohort_id && decide (max 1 watchers_floor ≤ row.watchers))

/-- The scoring loop of `compute_cohort_affinity` (lines 105-154): parallel
z-score lists indexed positionally, blended with fixed weights. -/
def affinity_scored (sq : ℚ → ℚ) (lg : ℕ → ℚ) (rows : List CohortFilmStat) :
    List AffinityScored :=
  let avg_rating_z := z_scores sq (rows.map (fun r => r.avg_rating))
  let watchers_z := z_scores sq (rows.map (fun r => lg (max 1 r.watchers)))
  let favorite_rates := rows.map (fun r => safe_ratio (r.favorites_count : ℚ) (r.watchers : ℚ))
  let favorite_rate_z := z_scores sq favorite_rates
  let like_rates := rows.map (fun r => safe_ratio (r.likes_count : ℚ) (r.watchers : ℚ))
  let like_rate_z := z_scores sq like_rates
  (List.range rows.length).map (fun idx =>
    let row := rows.getD idx default
    let dist := classify_row row
    let watchers_component := min (watchers_z.getD idx 0) 1
    { film_id := row.film_id
      score := 0.35 * avg_rating_z.getD idx 0 + 0.20 * watchers_component
        + 0.25 * favorite_rate_z.getD idx 0 + 0.10 * like_rate_z.getD idx 0
        + 0.10 * dist.2
        + 0.10 * clampQ (row.high_rating_pct - row.low_rating_pct) (-1) 1
      watchers := row.watchers
      avg_rating := row.avg_rating
      favorite_rate := favorite_rates.getD idx 0
      like_rate := like_rates.getD idx 0
      distribution_label := dist.1
      consensus_strength := clampQ (row.high_rating_pct - row.low_rating_pct) (-1) 1 })

/-- The Python sort key `(-score, -watchers)` compared ascending: `a` may
precede `b` iff `a`'s key is at most `b`'s. -/
def affinityLe (a b : AffinityScored) : Prop :=
  b.score < a.score ∨ (a.score = b.score ∧ b.watchers ≤ a.watchers)

instance : DecidableRel affinityLe := fun a b =>
  inferInstanceAs (Decidable (b.score < a.score ∨ (a.score = b.score ∧ b.watchers ≤ a.watchers)))

/-- The `enumerate(ordered, start=1)` loop of `compute_cohort_affinity`. -/
def affinity_ranked : ℕ → List AffinityScored → List AffinityResult
  | _, [] => []
  | n, e :: es =>
    ⟨e.film_id, e.score, n, e.watchers, e.avg_rating, e.favorite_rate, e.like_rate,
      e.distribution_label, e.consensus_strength⟩ :: affinity_ranked (n + 1) es

/-- `compute_cohort_affinity` from services/rankings.py. -/
def compute_cohort_affinity (sq : ℚ → ℚ) (lg : ℕ → ℚ) (table : List CohortFilmStat)
    (cohort_id watchers_floor : ℕ) : List AffinityResult :=
  let rows := affinity_rows table cohort_id watchers_floor
  if rows.isEmpty then []
  else affinity_ranked 1 (List.insertionSort affinityLe (affinity_scored sq lg rows))

/-! ## Ingestion consistency layer (services/ratings.py)

The SQLAlchemy session is modelled as an explicit record of tables; sequential
(single-writer) semantics.  The postgres `ON CONFLICT DO NOTHING` path and the
savepoint path of film creation both reduce, in a single-writer execution, to
"find, reconcile, otherwise insert", which is what the model implements. -/

/-- Python truthiness of an optional int: `None` and `0` are falsy. -/
def truthyInt : Option ℤ → Bool
  | none => false
  | some x => x != 0

/-- A row of the `films` table (the columns the ingestion layer touches). -/
structure Film where
  id : ℕ
  slug : String
  title : String
  tmdb_id : Option ℤ
  letterboxd_film_id : Option ℤ
  release_year : Option ℤ
deriving DecidableEq, Inhabited

/-- A scraped `FilmRating` record (scrapers/ratings.py), with the external id
already normalized to an optional int (`_normalize_letterboxd_id` maps str or
int input to int or None; the string parsing is outside the model). -/
structure FilmRatingRec where
  film_slug : String
  film_title : String
  rating : Option ℚ
  liked : Bool
  favorite : Bool
  letterboxd_film_id : Option ℤ
  release_year : Option ℤ
deriving DecidableEq, Inhabited

/-- A row of the `ratings` table; `updated_at` is a logical clock value.
(The column also carries an ORM-level `onupdate` hook that restamps it on any
flushed change; that hook is outside the model, and no theorem below asserts
that `updated_at` stays unchanged.) -/
structure RatingRow where
  user_id : ℕ
  film_id : ℕ
  rating : Option ℚ
  liked : Bool
  favorite : Bool
  updated_at : ℕ
deriving DecidableEq, Inhabited

def find_by_lbid (films : List Film) (l : ℤ) : Option Film :=
  films.find? (fun f => f.letterboxd_film_id == some l)

def find_by_slug (films : List Film) (slug : String) : Option Film :=
  films.find? (fun f => f.slug == slug)

/-- `_find_film`: external-id lookup first (done whenever the id is not None,
zero included), then slug lookup (done whenever the slug is non-empty). -/
def find_film (films : List Film) (slug : String) (lbid : Option ℤ) : Option Film :=
  match lbid with
  | some l =>
    match find_by_lbid films l with
    | some f => some f
    | none => if slug ≠ "" then find_by_slug films slug else none
  | none => if slug ≠ "" then find_by_slug films slug else none

/-- `_apply_film_metadata` from services/ratings.py: update the slug if
different, the title if non-empty and different, and fill `tmdb_id`,
`letterboxd_film_id` and `release_year` when the incoming value is truthy and
the stored one is falsy. -/
def apply_film_metadata (f0 : Film) (slug title : String)
    (tmdb_id lbid release_year : Option ℤ) : Film :=
  let f1 := if f0.slug ≠ slug then { f0 with slug := slug } else f0
  let f2 := if title ≠ "" ∧ f1.title ≠ title then { f1 with title := title } else f1
  let f3 := if truthyInt tmdb_id && !truthyInt f2.tmdb_id then
    { f2 with tmdb_id := tmdb_id } else f2
  let f4 := if truthyInt lbid && !truthyInt f3.letterboxd_film_id then
    { f3 with letterboxd_film_id := lbid } else f3
  if truthyInt release_year && !truthyInt f4.release_year then
    { f4 with release_year := release_year } else f4

/-- The films table plus its id sequence. -/
structure FilmsState where
  films : List Film
  next_id : ℕ
deriving DecidableEq

/-- The ORM mutates the found row in place: replace the film with that id. -/
def update_film (films : List Film) (f : Film) : List Film :=
  films.map (fun g => if g.id == f.id then f else g)

/-- `get_or_create_film` (sequential semantics): find by external id or slug,
reconcile metadata into the found row, otherwise insert a fresh row carrying
the same reconciled metadata.  Returns the canonical film id. -/
def get_or_create_film (fs : FilmsState) (slug title : String)
    (tmdb_id lbid release_year : Option ℤ) : FilmsState × ℕ :=
  match find_film fs.films slug lbid with
  | some f =>
    (⟨update_film fs.films (apply_film_metadata f slug title tmdb_id lbid release_year),
      fs.next_id⟩, f.id)
  | none =>
    let created := apply_film_metadata ⟨fs.next_id, slug, title, none, none, none⟩
      slug title tmdb_id lbid release_year
    (⟨fs.films ++ [created], fs.next_id + 1⟩, fs.next_id)

/-- The existing-row branch of the rating upsert (lines 85-100 of
services/ratings.py): overwrite `liked`/`favorite` always; overwrite `rating`
and stamp `updated_at` only when the incoming rating is not None. -/
def upsert_rating_row (r : RatingRow) (payload : FilmRatingRec) (now : ℕ) : RatingRow :=
  let r1 := match payload.rating with
    | some v => { r with rating := some v, updated_at := now }
    | none => r
  { r1 with liked := payload.liked, favorite := payload.favorite }

/-- The inserted row of the absent-row branch (column default stamps the
timestamp). -/
def new_rating_row (uid fid : ℕ) (payload : FilmRatingRec) (now : ℕ) : RatingRow :=
  ⟨uid, fid, payload.rating, payload.liked, payload.favorite, now⟩

def rating_key (uid fid : ℕ) (r : RatingRow) : Bool :=
  r.user_id == uid && r.film_id == fid

/-- `session.get(Rating, ...)` then update-or-insert, on the ratings table. -/
def upsert_row_list (rows : List RatingRow) (uid fid : ℕ) (payload : FilmRatingRec)
    (now : ℕ) : List RatingRow :=
  match rows.find? (rating_key uid fid) with
  | some _ => rows.map (fun r => if rating_key uid fid r then upsert_rating_row r payload now else r)
  | none => rows ++ [new_rating_row uid fid payload now]

/-- A row of the `users` table (the columns `upsert_ratings` touches). -/
structure UserRow where
  id : ℕ
  username : String
  last_full_scrape_at : Option ℕ
  last_incremental_scrape_at : Option ℕ
deriving DecidableEq, Inhabited

/-- The persistent state seen by `upsert_ratings`. -/
structure DBState where
  films : List Film
  next_film_id : ℕ
  users : List UserRow
  next_user_id : ℕ
  ratings : List RatingRow
deriving DecidableEq

/-- `get_or_create_user` from services/cohorts.py (unique username). -/
def get_or_create_user (s : DBState) (username : String) : DBState × ℕ :=
  match s.users.find? (fun u => u.username == username) with
  | some u => (s, u.id)
  | none =>
    ({ s with
       users := s.users ++ [⟨s.next_user_id, username, none, none⟩],
       next_user_id := s.next_user_id + 1 }, s.next_user_id)

/-- One iteration of the record loop of `upsert_ratings`: resolve the film,
then upsert the (user, film) rating row. -/
def upsert_one (uid now : ℕ) (s : DBState) (payload : FilmRatingRec) : DBState :=
  let res := get_or_create_film ⟨s.films, s.next_film_id⟩ payload.film_slug
    payload.film_title none payload.letterboxd_film_id payload.release_year
  { s with
    films := res.1.films,
    next_film_id := res.1.next_id,
    ratings := upsert_row_list s.ratings uid res.2 payload now }

/-- The watermark updates at the end of `upsert_ratings`. -/
def touch_user (s : DBState) (uid : ℕ) (touch_full touch_incr : Bool) (now : ℕ) : DBState :=
  { s with users := s.users.map (fun u =>
      if u.id == uid then
        { u with
          last_full_scrape_at := (if touch_full then some now else u.last_full_scrape_at),
          last_incremental_scrape_at :=
            (if touch_incr then some now else u.last_incremental_scrape_at) }
      else u) }

def film_slug_of (films : List Film) (fid : ℕ) : String :=
  match films.find? (fun f => f.id == fid) with
  | some f => f.slug
  | none => ""

/-- `_sync_user_favorites`: clear `favorite` on every favorite rating row of
the user whose film slug is outside the requested set; when the set is empty
the slug filter is skipped (Python truthiness), so every favorite row is
cleared. -/
def sync_user_favorites (s : DBState) (uid : ℕ) (favorite_slugs : List String) : DBState :=
  { s with ratings := s.ratings.map (fun r =>
      if r.user_id == uid && r.favorite &&
          (favorite_slugs.isEmpty || !(favorite_slugs.contains (film_slug_of s.films r.film_id)))
      then { r with favorite := false } else r) }

/-- `upsert_ratings` from services/ratings.py: resolve the user, fold the
record loop, set the requested watermarks, optionally sync favorites. -/
def upsert_ratings (s : DBState) (username : String) (records : List FilmRatingRec)
    (touch_last_full touch_last_incremental : Bool)
    (favorite_slugs : Option (List String)) (now : ℕ) : DBState :=
  let ur := get_or_create_user s username
  let s1 := records.foldl (upsert_one ur.2 now) ur.1
  let s2 := touch_user s1 ur.2 touch_last_full touch_last_incremental now
  match favorite_slugs with
  | some fs => sync_user_favorites s2 ur.2 fs
  | none => s2

/-- The identity-relevant projection of a film row: id, slug, external id.
Film resolution reads only these fields. -/
def film_core (f : Film) : ℕ × String × Option ℤ :=
  (f.id, f.slug, f.letterboxd_film_id)

/-- The claim-relevant projection of a rating row (everything except the
timestamps). -/
def row_proj (r : RatingRow) : ℕ × ℕ × Option ℚ × Bool × Bool :=
  (r.user_id, r.film_id, r.rating, r.liked, r.favorite)

/-- Database well-formedness of the films table: unique ids, unique slugs,
external ids nonzero and held by at most one row, ids below the sequence. -/
def films_wf (fs : FilmsState) : Prop :=
  fs.films.Pairwise (fun a b => a.id ≠ b.id)
  ∧ fs.films.Pairwise (fun a b => a.slug ≠ b.slug)
  ∧ (∀ f ∈ fs.films, f.letterboxd_film_id ≠ some 0)
  ∧ fs.films.Pairwise (fun a b => a.letterboxd_film_id = none
      ∨ b.letterboxd_film_id = none ∨ a.letterboxd_film_id ≠ b.letterboxd_film_id)
  ∧ (∀ f ∈ fs.films, f.id < fs.next_id)

/-- Sanity conditions on a scraped batch: non-empty slugs and no zero
external ids (zero never survives `_normalize_letterboxd_id` truthiness). -/
def records_ok (rs : List FilmRatingRec) : Prop :=
  ∀ p ∈ rs, p.film_slug ≠ "" ∧ p.letterboxd_film_id ≠ some 0

/-- Monotone evolution of the films table during ingestion: every existing
row keeps its id and slug, and a set external id is never changed. -/
def films_ext (fs fs2 : FilmsState) : Prop :=
  ∀ f ∈ fs.films, ∃ f2 ∈ fs2.films, f2.id = f.id ∧ f2.slug = f.slug
    ∧ (f.letterboxd_film_id ≠ none → f2.letterboxd_film_id = f.letterboxd_film_id)

/-- One film resolution of the record loop, on the films table alone. -/
def film_step (fs : FilmsState) (p : FilmRatingRec) : FilmsState × ℕ :=
  get_or_create_film fs p.film_slug p.film_title none p.letterboxd_film_id p.release_year

/-- The films table after resolving a whole batch in order. -/
def films_run (fs : FilmsState) (rs : List FilmRatingRec) : FilmsState :=
  rs.foldl (fun s p => (film_step s p).1) fs

/-- The film ids a batch resolves to, in order. -/
def films_trace (fs : FilmsState) : List FilmRatingRec → List ℕ
  | [] => []
  | p :: ps => (film_step fs p).2 :: films_trace (film_step fs p).1 ps

/-- Checked simulation of a batch's film resolutions: `true` iff no record
that finds a film renames its slug, and no record carries an external id
conflicting with the found film's already-set one.  (The C5 counterexample is
exactly a batch violating the first condition.) -/
def films_run_stable (fs : FilmsState) : List FilmRatingRec → Bool
  | [] => true
  | p :: ps =>
    match find_film fs.films p.film_slug p.letterboxd_film_id with
    | some f =>
      (f.slug == p.film_slug)
        && !(truthyInt p.letterboxd_film_id && truthyInt f.letterboxd_film_id
              && (f.letterboxd_film_id != p.letterboxd_film_id))
        && films_run_stable (film_step fs p).1 ps
    | none => films_run_stable (film_step fs p).1 ps

/-- The rating-row updates of a batch, keyed by the resolved film ids. -/
def rating_run (uid now : ℕ) (rows : List RatingRow)
    (pairs : List (ℕ × FilmRatingRec)) : List RatingRow :=
  pairs.foldl (fun rws fp => upsert_row_list rws uid fp.1 fp.2 now) rows

/-- The per-key view of the rating updates hitting one (user, film) row. -/
def key_fold (uid fid now : ℕ) (init : Option RatingRow) (ps : List FilmRatingRec) :
    Option RatingRow :=
  ps.foldl (fun acc p =>
    match acc with
    | some r => some (upsert_rating_row r p now)
    | none => some (new_rating_row uid fid p now)) init

/-- The last non-null rating carried by a record list, if any. -/
def lastSomeRating (ps : List FilmRatingRec) : Option (Option ℚ) :=
  ps.foldl (fun acc p => if p.rating.isSome then some p.rating else acc) none

/-- The rating value left behind by folding a record list over a start
value. -/
def fold_rating (x : Option ℚ) (ps : List FilmRatingRec) : Option ℚ :=
  ps.foldl (fun acc p => if p.rating.isSome then p.rating else acc) x

/-- The film-resolution anchor a processed record leaves behind: some film row
carries its resolved id, its slug, and (when the record has one) its external
id. -/
def film_anchor (F : FilmsState) (pr : ℕ × FilmRatingRec) : Prop :=
  ∃ f ∈ F.films, f.id = pr.1 ∧ f.slug = pr.2.film_slug
    ∧ ∀ l, pr.2.letterboxd_film_id = some l → f.letterboxd_film_id = some l

/-- Folding the update branch of the rating upsert over a payload list. -/
def fold_upsert (now : ℕ) (r : RatingRow) (ps : List FilmRatingRec) : RatingRow :=
  ps.foldl (fun r2 p => upsert_rating_row r2 p now) r

/-- Key-uniqueness of the ratings table (the `(user_id, film_id)` unique
constraint of db/models.py). -/
def ratings_wf (rows : List RatingRow) : Prop :=
  rows.Pairwise (fun a b => a.user_id ≠ b.user_id ∨ a.film_id ≠ b.film_id)

/-- The per-row function of the update branch of `upsert_row_list`. -/
def upd_one (uid fid now : ℕ) (p : FilmRatingRec) (r : RatingRow) : RatingRow :=
  if rating_key uid fid r then upsert_rating_row r p now else r

/-- The per-row function of `touch_user`. -/
def touch_fn (uid : ℕ) (touch_full touch_incr : Bool) (now : ℕ) (u : UserRow) : UserRow :=
  if u.id == uid then
    { u with
      last_full_scrape_at := (if touch_full then some now else u.last_full_scrape_at),
      last_incremental_scrape_at :=
        (if touch_incr then some now else u.last_incremental_scrape_at) }
  else u

/-- A user rating snapshot (`get_user_rating_snapshot` result): a slug-keyed
map, modelled as an association list without duplicate keys. -/
def snapshot_lookup (snapshot : List (String × Option ℚ)) (slug : String) :
    Option (Option ℚ) :=
  (snapshot.find? (fun e => e.1 == slug)).map (fun e => e.2)

/-- `rating_matches_snapshot` from services/ratings.py. -/
def rating_matches_snapshot (snapshot : List (String × Option ℚ))
    (payload : FilmRatingRec) : Bool :=
  if snapshot.isEmpty then false
  else
    match snapshot_lookup snapshot payload.film_slug with
    | none => false
    | some stored =>
      match stored, payload.rating with
      | none, none => true
      | none, some _ => false
      | some _, none => false
      | some s, some p => decide (|s - p| < 1 / 1000000)

/-! ## Insight engine (services/insights.py) -/

/-- A `FilmStat` row as read for insight computation (the timeframe-filter
columns `release_year` and the two timestamps are carried along; the claims
below are about `_derive_insights`, which does not read them). -/
structure FilmStat where
  film_id : ℕ
  slug : String
  title : String
  release_year : Option ℤ
  watchers : ℕ
  avg_rating : ℚ
deriving DecidableEq, Inhabited

structure FilmInsight where
  film_id : ℕ
  slug : String
  title : String
  watchers : ℕ
  avg_rating : ℚ
  watchers_percentile : ℚ
  rating_percentile : ℚ
  watchers_zscore : ℚ
  rating_zscore : ℚ
  bucket_label : String
  cluster_label : String
deriving DecidableEq, Inhabited

def sortedQ (values : List ℚ) : List ℚ :=
  List.insertionSort (fun a b : ℚ => a ≤ b) values

/-- 1-based rank of the first occurrence of `v` in sorted order. -/
def first_seen (values : List ℚ) (v : ℚ) : ℕ := (sortedQ values).indexOf v + 1

/-- 1-based rank of the last occurrence of `v` in sorted order. -/
def last_seen (values : List ℚ) (v : ℚ) : ℕ :=
  (sortedQ values).length - (sortedQ values).reverse.indexOf v

/-- `_percentile_lookup` from services/insights.py, as a function: average the
1-based ranks of the first and last occurrence, divide by `n`, times 100; the
dict `.get(value, 0.0)` default applies to values outside the population. -/
def percentile_of (values : List ℚ) (v : ℚ) : ℚ :=
  if v ∈ values then
    ((first_seen values v : ℚ) + (last_seen values v : ℚ)) / 2 / (values.length : ℚ) * 100
  else 0

/-- `_zscore` from services/insights.py. -/
def zscore_ml (value mean std_dev : ℚ) : ℚ :=
  if std_dev = 0 then 0 else (value - mean) / std_dev

/-- `_bucket_label` from services/insights.py (priority order, first match). -/
def bucket_label (watchers_pct rating_pct : ℚ) : String :=
  if 90 ≤ watchers_pct ∧ 90 ≤ rating_pct then "Elite acclaim"
  else if 90 ≤ rating_pct ∧ watchers_pct < 50 then "Cult favorite"
  else if 90 ≤ watchers_pct ∧ 40 ≤ rating_pct ∧ rating_pct ≤ 65 then "Crowd pleaser"
  else if 80 ≤ rating_pct ∧ 60 ≤ watchers_pct then "Critical favorite"
  else if 70 ≤ rating_pct ∧ watchers_pct < 30 then "Hidden gem"
  else if 85 ≤ watchers_pct ∧ rating_pct < 40 then "Guilty pleasure"
  else if rating_pct < 30 ∧ watchers_pct < 30 then "Skip it"
  else "Steady performer"

/-- `_cluster_label` from services/insights.py (priority order, first match). -/
def cluster_label (watchers_z rating_z : ℚ) : String :=
  if 1 ≤ rating_z ∧ 1 ≤ watchers_z then "High rating / high watchers"
  else if 1 ≤ rating_z ∧ watchers_z ≤ -0.25 then "High rating / low watchers"
  else if rating_z ≤ -1 ∧ 0.5 ≤ watchers_z then "Low rating / high watchers"
  else if rating_z ≤ -1 ∧ watchers_z ≤ -0.25 then "Low rating / low watchers"
  else if |rating_z| ≤ 0.5 ∧ 0.75 ≤ watchers_z then "High engagement / mixed sentiment"
  else if 0.5 ≤ rating_z ∧ |watchers_z| ≤ 0.5 then "Critical darling"
  else if rating_z ≤ -0.5 ∧ |watchers_z| ≤ 0.5 then "Divisive pick"
  else "Middle of the pack"

/-- The `watchers > 0 and avg_rating > 0` population filter. -/
def insight_rows (stats : List FilmStat) : List FilmStat :=
  stats.filter (fun stat => decide (0 < stat.watchers) && decide (0 < stat.avg_rating))

/-- The final `insights.sort(key=...)` comparison: ascending on the
`(bucket_label, -rating_percentile, -watchers_percentile)` tuple, where the
label comparison is Python string comparison. -/
def insightLe (a b : FilmInsight) : Prop :=
  strLt a.bucket_label b.bucket_label = true
    ∨ (a.bucket_label = b.bucket_label
        ∧ (b.rating_percentile < a.rating_percentile
            ∨ (a.rating_percentile = b.rating_percentile
                ∧ b.watchers_percentile ≤ a.watchers_percentile)))

instance : DecidableRel insightLe := fun _ _ =>
  inferInstanceAs (Decidable (_ ∨ _))

/-- `_derive_insights` from services/insights.py. -/
def derive_insights (sq : ℚ → ℚ) (stats : List FilmStat) : List FilmInsight :=
  let rows := insight_rows stats
  if rows.isEmpty then []
  else
    let watcher_values := rows.map (fun stat => (stat.watchers : ℚ))
    let rating_values := rows.map (fun stat => stat.avg_rating)
    let watcher_mean := fmean watcher_values
    let rating_mean := fmean rating_values
    let watcher_std := pstdev sq watcher_values
    let rating_std := pstdev sq rating_values
    let insights := rows.map (fun stat =>
      let w_pct := percentile_of watcher_values (stat.watchers : ℚ)
      let r_pct := percentile_of rating_values stat.avg_rating
      let w_z := zscore_ml (stat.watchers : ℚ) watcher_mean watcher_std
      let r_z := zscore_ml stat.avg_rating rating_mean rating_std
      ({ film_id := stat.film_id, slug := stat.slug, title := stat.title,
         watchers := stat.watchers, avg_rating := stat.avg_rating,
         watchers_percentile := w_pct, rating_percentile := r_pct,
         watchers_zscore := w_z, rating_zscore := r_z,
         bucket_label := bucket_label w_pct r_pct,
         cluster_label := cluster_label w_z r_z } : FilmInsight))
    List.insertionSort insightLe insights

/-- The ordering that claim C7 asserts for the insight list, transcribed from
the claim (not from the code): insights grouped contiguously by bucket label,
groups in descending order of group size with ties broken by label text, and
within a group descending rating percentile with ties broken by descending
watcher percentile. -/
def spec_c7_group_ordering (l : List FilmInsight) : Prop :=
  (∀ i j k : ℕ, i < j → j < k → k < l.length →
    (l.getD i default).bucket_label = (l.getD k default).bucket_label →
    (l.getD i default).bucket_label = (l.getD j default).bucket_label)
  ∧ (∀ i j : ℕ, i < j → j < l.length →
      (l.getD i default).bucket_label ≠ (l.getD j default).bucket_label →
      (l.countP (fun x => x.bucket_label == (l.getD j default).bucket_label)
          < l.countP (fun x => x.bucket_label == (l.getD i default).bucket_label)
        ∨ (l.countP (fun x => x.bucket_label == (l.getD j default).bucket_label)
            = l.countP (fun x => x.bucket_label == (l.getD i default).bucket_label)
          ∧ strLt (l.getD i default).bucket_label (l.getD j default).bucket_label = true)))
  ∧ (∀ i j : ℕ, i < j → j < l.length →
      (l.getD i default).bucket_label = (l.getD j default).bucket_label →
      ((l.getD j default).rating_percentile < (l.getD i default).rating_percentile
        ∨ ((l.getD i default).rating_percentile = (l.getD j default).rating_percentile
          ∧ (l.getD j default).watchers_percentile
            ≤ (l.getD i default).watchers_percentile)))

/-! ## Timeframe keys (services/insights.py, `BucketFilters`) -/

/-- A calendar date; `datetime.date().isoformat()` output. -/
structure DateOnly where
  year : ℕ
  month : ℕ
  day : ℕ
deriving DecidableEq

def padNum (width n : ℕ) : String :=
  let s := toString n
  String.mk (List.replicate (width - s.length) '0') ++ s

def iso_date (d : DateOnly) : String :=
  padNum 4 d.year ++ "-" ++ padNum 2 d.month ++ "-" ++ padNum 2 d.day

/-- `BucketFilters` (the three watch-recency forms are mutually exclusive by
construction at the call sites; the dataclass itself allows any combination,
as does this model). -/
structure BucketFilters where
  release_start : Option ℤ
  release_end : Option ℤ
  watched_year : Option ℤ
  watched_since : Option DateOnly
  watched_until : Option DateOnly
deriving DecidableEq

/-- The `{x or '-'}` interpolation for an optional int field. -/
def optIntText : Option ℤ → String
  | some x => if x ≠ 0 then toString x else "-"
  | none => "-"

/-- `BucketFilters.to_timeframe_key` from services/insights.py. -/
def to_timeframe_key (f : BucketFilters) : String :=
  let parts : List String :=
    (if truthyInt f.release_start || truthyInt f.release_end then
      ["release:" ++ optIntText f.release_start ++ "-" ++ optIntText f.release_end]
    else [])
    ++ (if truthyInt f.watched_year then
      ["watched-year:" ++ (match f.watched_year with | some x => toString x | none => "-")]
    else [])
    ++ (if f.watched_since.isSome || f.watched_until.isSome then
      ["watched:"
        ++ (match f.watched_since with | some d => iso_date d | none => "-")
        ++ "-"
        ++ (match f.watched_until with | some d => iso_date d | none => "-")]
    else [])
  if parts.isEmpty then "all" else String.intercalate "|" parts

/-! ## Job runs (pipeline/jobs.py) -/

inductive JobStatus
  | running
  | succeeded
  | failed
deriving DecidableEq

/-- A `JobRun` row; `finished` stands for `finished_at` having been set. -/
structure JobRunRow where
  id : ℕ
  job_name : String
  status : JobStatus
  last_error : Option String
  finished : Bool
deriving DecidableEq

/-- Observable events of one `job_run` execution, in order. -/
inductive JobEvent
  | created (run_id : ℕ) (status : JobStatus)
  | body_executed
  | finalized (run_id : ℕ) (status : JobStatus) (error : Option String)
deriving DecidableEq

/-- `_create_job_run`: insert a row in `running` status, return its id. -/
def create_job_run (tbl : List JobRunRow) (job_name : String) : List JobRunRow × ℕ :=
  let rid := tbl.length
  (tbl ++ [⟨rid, job_name, JobStatus.running, none, false⟩], rid)

/-- `_finalize_job_run`: look the row up and set status, error and finish
stamp (a missing row makes the call a no-op). -/
def finalize_job_run (tbl : List JobRunRow) (run_id : ℕ) (status : JobStatus)
    (error : Option String) : List JobRunRow :=
  match tbl.find? (fun r => r.id == run_id) with
  | none => tbl
  | some _ => tbl.map (fun r =>
      if r.id == run_id then { r with status := status, last_error := error, finished := true }
      else r)

/-- `job_run` from pipeline/jobs.py: create the row, run the stage body
(modelled as an `Except` outcome), finalize on the `else` branch for normal
exit or on the `except` branch (recording the message, then re-raising) for
exceptional exit.  Returns the final table, the event trace in execution
order, and the propagated outcome. -/
def job_run {α : Type} (tbl : List JobRunRow) (job_name : String)
    (body : Except String α) : List JobRunRow × List JobEvent × Except String α :=
  let created := create_job_run tbl job_name
  match body with
  | Except.ok a =>
    (finalize_job_run created.1 created.2 JobStatus.succeeded none,
     [JobEvent.created created.2 JobStatus.running, JobEvent.body_executed,
      JobEvent.finalized created.2 JobStatus.succeeded none],
     Except.ok a)
  | Except.error e =>
    (finalize_job_run created.1 created.2 JobStatus.failed (some e),
     [JobEvent.created created.2 JobStatus.running, JobEvent.body_executed,
      JobEvent.finalized created.2 JobStatus.failed (some e)],
     Except.error e)

/-! ## Helper lemmas -/

theorem charListLt_irrefl (l : List Char) : charListLt l l = false := by
  induction l with
  | nil => rfl
  | cons a as ih => simp [charListLt, ih]

theorem charListLt_asymm {a b : List Char} (h : charListLt a b = true) :
    charListLt b a = false := by
  induction a generalizing b with
  | nil =>
    cases b with
    | nil => simp [charListLt] at h
    | cons y ys => simp [charListLt]
  | cons x xs ih =>
    cases b with
    | nil => simp [charListLt] at h
    | cons y ys =>
      rcases Nat.lt_trichotomy x.toNat y.toNat with hxy | hxy | hxy
      · have h1 : ¬ y.toNat < x.toNat := by omega
        simp [charListLt, h1, hxy]
      · have h1 : ¬ x.toNat < y.toNat := by omega
        have h2 : ¬ y.toNat < x.toNat := by omega
        simp only [charListLt, h1, h2, if_false] at h ⊢
        exact ih h
      · have h1 : ¬ x.toNat < y.toNat := by omega
        simp [charListLt, h1, hxy] at h

theorem charListLt_trans {a b c : List Char} (hab : charListLt a b = true)
    (hbc : charListLt b c = true) : charListLt a c = true := by
  induction a generalizing b c with
  | nil =>
    cases c with
    | nil =>
      cases b with
      | nil => exact hbc
      | cons y ys => simp [charListLt] at hbc
    | cons z zs => simp [charListLt]
  | cons x xs ih =>
    cases b with
    | nil => simp [charListLt] at hab
    | cons y ys =>
      cases c with
      | nil => simp [charListLt] at hbc
      | cons z zs =>
        rcases Nat.lt_trichotomy x.toNat y.toNat with hxy | hxy | hxy
        · rcases Nat.lt_trichotomy y.toNat z.toNat with hyz | hyz | hyz
          · have h1 : x.toNat < z.toNat := by omega
            simp [charListLt, h1]
          · have h1 : x.toNat < z.toNat := by omega
            simp [charListLt, h1]
          · have h1 : ¬ y.toNat < z.toNat := by omega
            simp [charListLt, h1, hyz] at hbc
        · rcases Nat.lt_trichotomy y.toNat z.toNat with hyz | hyz | hyz
          · have h1 : x.toNat < z.toNat := by omega
            simp [charListLt, h1]
          · have h1 : ¬ x.toNat < y.toNat := by omega
            have h2 : ¬ y.toNat < x.toNat := by omega
            have h3 : ¬ y.toNat < z.toNat := by omega
            have h4 : ¬ z.toNat < y.toNat := by omega
            have h5 : ¬ x.toNat < z.toNat := by omega
            have h6 : ¬ z.toNat < x.toNat := by omega
            simp only [charListLt, h1, h2, h3, h4, h5, h6, if_false] at hab hbc ⊢
            exact ih hab hbc
          · have h1 : ¬ y.toNat < z.toNat := by omega
            simp [charListLt, h1, hyz] at hbc
        · have h1 : ¬ x.toNat < y.toNat := by omega
          simp [charListLt, h1, hxy] at hab

theorem charListLt_total {a b : List Char} (hab : charListLt a b = false)
    (hba : charListLt b a = false) : a = b := by
  induction a generalizing b with
  | nil =>
    cases b with
    | nil => rfl
    | cons y ys => simp [charListLt] at hab
  | cons x xs ih =>
    cases b with
    | nil => simp [charListLt] at hba
    | cons y ys =>
      rcases Nat.lt_trichotomy x.toNat y.toNat with hxy | hxy | hxy
      · simp [charListLt, hxy] at hab
      · have hx : x = y := Char.ext (UInt32.ext hxy)
        subst hx
        have h1 : ¬ x.toNat < x.toNat := by omega
        simp only [charListLt, h1, if_false] at hab hba
        exact congrArg (x :: ·) (ih hab hba)
      · have h1 : ¬ x.toNat < y.toNat := by omega
        simp [charListLt, h1, hxy] at hba

theorem strLt_asymm {a b : String} (h : strLt a b = true) : strLt b a = false :=
  charListLt_asymm h

theorem strLt_trans {a b c : String} (hab : strLt a b = true)
    (hbc : strLt b c = true) : strLt a c = true :=
  charListLt_trans hab hbc

theorem strLt_total {a b : String} (hab : strLt a b = false)
    (hba : strLt b a = false) : a = b := by
  cases a with
  | mk da =>
    cases b with
    | mk db => exact congrArg String.mk (charListLt_total hab hba)

theorem snapshot_lookup_nil (slug : String) : snapshot_lookup [] slug = none := rfl

/-- C10.  The incremental short-circuit match decision reads only the slug and
the rating of the record: the `liked`/`favorite` flags never influence it; a
record matches exactly when its slug is a key of the snapshot and the stored
and incoming ratings are both None or both present within `1e-6`; the empty
snapshot matches nothing. -/
theorem c10_rating_matches_snapshot_contract :
    (∀ (snapshot : List (String × Option ℚ)) (slug title : String) (r : Option ℚ)
      (l1 f1 l2 f2 : Bool) (lb ry : Option ℤ),
      rating_matches_snapshot snapshot ⟨slug, title, r, l1, f1, lb, ry⟩
        = rating_matches_snapshot snapshot ⟨slug, title, r, l2, f2, lb, ry⟩)
    ∧ (∀ (snapshot : List (String × Option ℚ)) (p : FilmRatingRec),
        rating_matches_snapshot snapshot p = true ↔
          ∃ stored, snapshot_lookup snapshot p.film_slug = some stored ∧
            ((stored = none ∧ p.rating = none) ∨
              ∃ s r, stored = some s ∧ p.rating = some r ∧ |s - r| < 1 / 1000000))
    ∧ (∀ p : FilmRatingRec, rating_matches_snapshot [] p = false) := by
  refine ⟨fun _ _ _ _ _ _ _ _ _ _ => rfl, fun snapshot p => ?_, fun _ => rfl⟩
  cases snapshot with
  | nil =>
    simp [rating_matches_snapshot, snapshot_lookup]
  | cons e es =>
    simp only [rating_matches_snapshot, List.isEmpty_cons, if_false, Bool.false_eq_true]
    cases hl : snapshot_lookup (e :: es) p.film_slug with
    | none => simp
    | some stored =>
      cases stored with
      | none =>
        cases hr : p.rating with
        | none => simp [hr]
        | some r => simp [hr]
      | some sv =>
        cases hr : p.rating with
        | none => simp [hr]
        | some r => simp [hr, decide_eq_true_eq]

theorem job_find_append_fresh (tbl : List JobRunRow) (row : JobRunRow)
    (h : ∀ r ∈ tbl, r.id ≠ row.id) :
    (tbl ++ [row]).find? (fun r => r.id == row.id) = some row := by
  induction tbl with
  | nil => simp [List.find?]
  | cons a as ih =>
    have ha : (a.id == row.id) = false := by
      simp [h a (List.mem_cons_self a as)]
    simp only [List.cons_append, List.find?, ha]
    exact ih (fun r hr => h r (List.mem_cons_of_mem a hr))

theorem job_map_untouched (tbl : List JobRunRow) (rid : ℕ) (st : JobStatus)
    (err : Option String) (h : ∀ r ∈ tbl, r.id ≠ rid) :
    tbl.map (fun r =>
      if r.id == rid then { r with status := st, last_error := err, finished := true } else r)
      = tbl := by
  induction tbl with
  | nil => rfl
  | cons a as ih =>
    have ha : (a.id == rid) = false := by simp [h a (List.mem_cons_self a as)]
    simp only [List.map_cons, ha, Bool.false_eq_true, if_false]
    rw [ih (fun r hr => h r (List.mem_cons_of_mem a hr))]

theorem job_finalize_append (tbl : List JobRunRow) (row : JobRunRow)
    (st : JobStatus) (err : Option String) (h : ∀ r ∈ tbl, r.id ≠ row.id) :
    finalize_job_run (tbl ++ [row]) row.id st err
      = tbl ++ [{ row with status := st, last_error := err, finished := true }] := by
  unfold finalize_job_run
  rw [job_find_append_fresh tbl row h]
  simp only [List.map_append, List.map_cons, List.map_nil, beq_self_eq_true, if_true]
  rw [job_map_untouched tbl row.id st err h]

/-- C9.  A `job_run` wrapper creates the `JobRun` row in `running` status
before executing the body, finalizes it exactly once no matter how the body
exits — to `succeeded` on normal exit, to `failed` with the exception message
recorded on exceptional exit — and propagates the original outcome. -/
theorem c9_job_run_contract {α : Type} (tbl : List JobRunRow) (job_name : String)
    (body : Except String α) (hfresh : ∀ r ∈ tbl, r.id ≠ tbl.length) :
    (job_run tbl job_name body).2.1.take 2
      = [JobEvent.created tbl.length JobStatus.running, JobEvent.body_executed]
    ∧ ((job_run tbl job_name body).2.1.countP
        (fun e => match e with | JobEvent.finalized _ _ _ => true | _ => false)) = 1
    ∧ (∀ a, body = Except.ok a →
        (job_run tbl job_name body).1
          = tbl ++ [⟨tbl.length, job_name, JobStatus.succeeded, none, true⟩]
        ∧ (job_run tbl job_name body).2.2 = Except.ok a)
    ∧ (∀ e, body = Except.error e →
        (job_run tbl job_name body).1
          = tbl ++ [⟨tbl.length, job_name, JobStatus.failed, some e, true⟩]
        ∧ (job_run tbl job_name body).2.2 = Except.error e) := by
  cases body with
  | ok a =>
    refine ⟨rfl, rfl, ?_, ?_⟩
    · intro b hb
      injection hb with h
      subst h
      refine ⟨?_, rfl⟩
      exact job_finalize_append tbl ⟨tbl.length, job_name, JobStatus.running, none, false⟩
        JobStatus.succeeded none hfresh
    · intro e2 he
      exact absurd he (by simp)
  | error e =>
    refine ⟨rfl, rfl, ?_, ?_⟩
    · intro b hb
      exact absurd hb (by simp)
    · intro e2 he
      injection he with h
      subst h
      refine ⟨?_, rfl⟩
      exact job_finalize_append tbl ⟨tbl.length, job_name, JobStatus.running, none, false⟩
        JobStatus.failed _ hfresh

/-- Witness for C9 at a concrete failing body on an empty job table. -/
theorem c9_job_run_contract_witness :
    (job_run [] "cohort-pipeline" (Except.error "boom" : Except String ℕ)).1
      = [⟨0, "cohort-pipeline", JobStatus.failed, some "boom", true⟩]
    ∧ (job_run [] "cohort-pipeline" (Except.error "boom" : Except String ℕ)).2.2
      = Except.error "boom" := by
  have h := c9_job_run_contract ([] : List JobRunRow) "cohort-pipeline"
    (Except.error "boom" : Except String ℕ) (by intro r hr; cases hr)
  simpa using h.2.2.2 "boom" rfl

/-- Counterexample for C8: the since/until f-string joins the two dates with a
single hyphen, so the claimed key `watched:2023-01-01--2023-06-30` (double
hyphen before the until-date) is not what the code produces. -/
theorem c8_timeframe_key_counterexample :
    to_timeframe_key ⟨none, none, none, some ⟨2023, 1, 1⟩, some ⟨2023, 6, 30⟩⟩
      = "watched:2023-01-01-2023-06-30"
    ∧ "watched:2023-01-01-2023-06-30" ≠ "watched:2023-01-01--2023-06-30" := by
  exact ⟨rfl, by decide⟩

/-- C8 (amended).  The timeframe key is a deterministic function of the set
filter fields: unfiltered gives `all`, release range 1990-1999 gives
`release:1990-1999`, watched-year 2023 gives `watched-year:2023`, and a
since/until range of 2023-01-01 to 2023-06-30 gives
`watched:2023-01-01-2023-06-30` (the two dates joined by a single hyphen,
not the double hyphen the original claim stated). -/
theorem c8_timeframe_key_amended :
    to_timeframe_key ⟨none, none, none, none, none⟩ = "all"
    ∧ to_timeframe_key ⟨some 1990, some 1999, none, none, none⟩ = "release:1990-1999"
    ∧ to_timeframe_key ⟨none, none, some 2023, none, none⟩ = "watched-year:2023"
    ∧ to_timeframe_key ⟨none, none, none, some ⟨2023, 1, 1⟩, some ⟨2023, 6, 30⟩⟩
        = "watched:2023-01-01-2023-06-30" := by
  exact ⟨rfl, rfl, rfl, rfl⟩

/-- Counterexample for C6: a stored external id of `0` is non-null, yet the
truthiness guard `not film.letterboxd_film_id` treats it as unset, so a
resolve call carrying id `5` overwrites it with a different value. -/
theorem c6_external_id_counterexample :
    (get_or_create_film ⟨[⟨1, "heat-1995", "Heat", none, some 0, none⟩], 2⟩
        "heat-1995" "Heat" none (some 5) none).1.films
      = [⟨1, "heat-1995", "Heat", none, some 5, none⟩]
    ∧ some (5 : ℤ) ≠ some (0 : ℤ) := by
  exact ⟨rfl, by decide⟩

theorem apply_film_metadata_id (f : Film) (slug title : String)
    (tmdb_id lbid release_year : Option ℤ) :
    (apply_film_metadata f slug title tmdb_id lbid release_year).id = f.id := by
  simp only [apply_film_metadata]
  repeat' split
  all_goals simp_all

theorem apply_film_metadata_slug (f : Film) (slug title : String)
    (tmdb_id lbid release_year : Option ℤ) :
    (apply_film_metadata f slug title tmdb_id lbid release_year).slug = slug := by
  simp only [apply_film_metadata]
  repeat' split
  all_goals simp_all

theorem apply_film_metadata_lbid (f : Film) (slug title : String)
    (tmdb_id lbid release_year : Option ℤ) :
    (apply_film_metadata f slug title tmdb_id lbid release_year).letterboxd_film_id
      = if truthyInt lbid && !truthyInt f.letterboxd_film_id then lbid
        else f.letterboxd_film_id := by
  simp only [apply_film_metadata]
  repeat' split
  all_goals simp_all

theorem apply_film_metadata_release_year (f : Film) (slug title : String)
    (tmdb_id lbid release_year : Option ℤ) :
    (apply_film_metadata f slug title tmdb_id lbid release_year).release_year
      = if truthyInt release_year && !truthyInt f.release_year then release_year
        else f.release_year := by
  simp only [apply_film_metadata]
  repeat' split
  all_goals simp_all

theorem find_by_slug_mem {films : List Film} {slug : String} {f : Film}
    (h : find_by_slug films slug = some f) : f ∈ films :=
  List.mem_of_find?_eq_some h

theorem find_by_lbid_mem {films : List Film} {l : ℤ} {f : Film}
    (h : find_by_lbid films l = some f) : f ∈ films :=
  List.mem_of_find?_eq_some h

theorem find_film_mem {films : List Film} {slug : String} {lbid : Option ℤ} {f : Film}
    (h : find_film films slug lbid = some f) : f ∈ films := by
  cases lbid with
  | none =>
    have hd : find_film films slug none
        = (if slug ≠ "" then find_by_slug films slug else none) := rfl
    rw [hd] at h
    by_cases hs : slug ≠ ""
    · rw [if_pos hs] at h
      exact find_by_slug_mem h
    · rw [if_neg hs] at h
      cases h
  | some l =>
    have hd : find_film films slug (some l)
        = (match find_by_lbid films l with
            | some f2 => some f2
            | none => if slug ≠ "" then find_by_slug films slug else none) := rfl
    rw [hd] at h
    cases hbl : find_by_lbid films l with
    | some f2 =>
      rw [hbl] at h
      injection h with h2
      subst h2
      exact find_by_lbid_mem hbl
    | none =>
      rw [hbl] at h
      by_cases hs : slug ≠ ""
      · rw [if_pos hs] at h
        exact find_by_slug_mem h
      · rw [if_neg hs] at h
        cases h

/-- C6 (amended).  Reconciliation never overwrites an already-set truthy
(non-null and nonzero) external id: such a field is left exactly as it was by
`_apply_film_metadata` and by any `get_or_create_film` resolve call, and the
`letterboxd_film_id`/`release_year` fields change only when they were
previously falsy (null or zero) and the incoming value is truthy, taking the
incoming value. -/
theorem c6_external_id_amended :
    (∀ (f : Film) (slug title : String) (tmdb_id lbid release_year : Option ℤ),
      (truthyInt f.letterboxd_film_id = true →
        (apply_film_metadata f slug title tmdb_id lbid release_year).letterboxd_film_id
          = f.letterboxd_film_id)
      ∧ ((apply_film_metadata f slug title tmdb_id lbid release_year).letterboxd_film_id
            ≠ f.letterboxd_film_id →
          truthyInt f.letterboxd_film_id = false ∧ truthyInt lbid = true ∧
          (apply_film_metadata f slug title tmdb_id lbid release_year).letterboxd_film_id = lbid)
      ∧ (truthyInt f.release_year = true →
        (apply_film_metadata f slug title tmdb_id lbid release_year).release_year
          = f.release_year)
      ∧ ((apply_film_metadata f slug title tmdb_id lbid release_year).release_year
            ≠ f.release_year →
          truthyInt f.release_year = false ∧ truthyInt release_year = true ∧
          (apply_film_metadata f slug title tmdb_id lbid release_year).release_year
            = release_year))
    ∧ (∀ (fs : FilmsState) (slug title : String) (tmdb_id lbid release_year : Option ℤ),
        fs.films.Pairwise (fun a b => a.id ≠ b.id) →
        ∀ g ∈ fs.films, truthyInt g.letterboxd_film_id = true →
        ∃ g' ∈ (get_or_create_film fs slug title tmdb_id lbid release_year).1.films,
          g'.id = g.id ∧ g'.letterboxd_film_id = g.letterboxd_film_id) := by
  constructor
  · intro f slug title tmdb_id lbid release_year
    have hl := apply_film_metadata_lbid f slug title tmdb_id lbid release_year
    have hr := apply_film_metadata_release_year f slug title tmdb_id lbid release_year
    refine ⟨?_, ?_, ?_, ?_⟩
    · intro htr
      rw [hl, htr]
      simp
    · intro hch
      rw [hl] at hch ⊢
      by_cases hc : truthyInt lbid && !truthyInt f.letterboxd_film_id
      · have hp := (Bool.and_eq_true _ _).mp hc
        refine ⟨by simpa using hp.2, hp.1, by simp [hc]⟩
      · exact absurd (by simp [hc]) hch
    · intro htr
      rw [hr, htr]
      simp
    · intro hch
      rw [hr] at hch ⊢
      by_cases hc : truthyInt release_year && !truthyInt f.release_year
      · have hp := (Bool.and_eq_true _ _).mp hc
        refine ⟨by simpa using hp.2, hp.1, by simp [hc]⟩
      · exact absurd (by simp [hc]) hch
  · intro fs slug title tmdb_id lbid release_year hpw g hg htr
    unfold get_or_create_film
    cases hfind : find_film fs.films slug lbid with
    | none =>
      exact ⟨g, by simp [List.mem_append, hg], rfl, rfl⟩
    | some f =>
      have hfmem : f ∈ fs.films := find_film_mem hfind
      by_cases hgid : g.id = f.id
      · have hgf : g = f := by
          by_contra hne
          have hsymm : Symmetric (fun a b : Film => a.id ≠ b.id) :=
            fun a b h e => h e.symm
          have hdist := List.Pairwise.forall hsymm hpw
          exact (hdist hg hfmem hne) hgid
        subst hgf
        refine ⟨apply_film_metadata g slug title tmdb_id lbid release_year, ?_, ?_, ?_⟩
        · simp only [update_film]
          exact List.mem_map.mpr ⟨g, hg, by simp [apply_film_metadata_id]⟩
        · exact apply_film_metadata_id g slug title tmdb_id lbid release_year
        · rw [apply_film_metadata_lbid, htr]
          simp
      · refine ⟨g, ?_, rfl, rfl⟩
        simp only [update_film]
        refine List.mem_map.mpr ⟨g, hg, ?_⟩
        simp [apply_film_metadata_id, hgid]

/-- Witness for C6 (amended): a film holding external id 7 is untouched by a
resolve call that creates a different film. -/
theorem c6_external_id_amended_witness :
    ∃ g' ∈ (get_or_create_film ⟨[⟨1, "alien", "Alien", none, some 7, none⟩], 2⟩
        "blade-runner" "Blade Runner" none (some 9) none).1.films,
      g'.id = 1 ∧ g'.letterboxd_film_id = some 7 := by
  have h := c6_external_id_amended.2 ⟨[⟨1, "alien", "Alien", none, some 7, none⟩], 2⟩
    "blade-runner" "Blade Runner" none (some 9) none
    (by simp) ⟨1, "alien", "Alien", none, some 7, none⟩ (by simp) (by decide)
  exact h

/-- Counterexample for C4: a record with a null rating on an existing row does
not overwrite the stored rating with the record value — the stored `4.0`
survives, where the claim requires it to become the record rating (None). -/
theorem c4_upsert_overwrite_counterexample :
    (upsert_row_list [⟨7, 3, some 4, false, false, 0⟩] 7 3
        ⟨"film-a", "Film A", none, true, true, none, none⟩ 5).map
        (fun r => r.rating)
      = [some 4]
    ∧ some (4 : ℚ) ≠ (none : Option ℚ) := by
  exact ⟨rfl, by simp⟩

theorem rating_key_upsert (uid fid : ℕ) (r : RatingRow) (p : FilmRatingRec) (now : ℕ) :
    rating_key uid fid (upsert_rating_row r p now) = rating_key uid fid r := by
  unfold upsert_rating_row rating_key
  cases p.rating <;> rfl

/-- C4 (amended).  For every record processed by `upsert_ratings`: when the
(user, film) rating row exists, the call overwrites `liked` and `favorite`
with the record values, and overwrites `rating` and stamps `updated_at` only
when the record rating is non-null (a null incoming rating leaves the stored
rating in place); when the row is absent a new row carrying the record values
is inserted. -/
theorem c4_upsert_overwrite_amended (s : DBState) (uid now : ℕ) (p : FilmRatingRec) :
    (∀ r, s.ratings.find? (rating_key uid
        (get_or_create_film ⟨s.films, s.next_film_id⟩ p.film_slug p.film_title
          none p.letterboxd_film_id p.release_year).2) = some r →
      (upsert_one uid now s p).ratings.length = s.ratings.length
      ∧ (upsert_one uid now s p).ratings.find? (rating_key uid
          (get_or_create_film ⟨s.films, s.next_film_id⟩ p.film_slug p.film_title
            none p.letterboxd_film_id p.release_year).2)
          = some (upsert_rating_row r p now)
      ∧ (upsert_rating_row r p now).liked = p.liked
      ∧ (upsert_rating_row r p now).favorite = p.favorite
      ∧ (upsert_rating_row r p now).rating
          = (if p.rating.isSome then p.rating else r.rating)
      ∧ (p.rating.isSome = true → (upsert_rating_row r p now).updated_at = now))
    ∧ (s.ratings.find? (rating_key uid
        (get_or_create_film ⟨s.films, s.next_film_id⟩ p.film_slug p.film_title
          none p.letterboxd_film_id p.release_year).2) = none →
      (upsert_one uid now s p).ratings
        = s.ratings ++ [new_rating_row uid
            (get_or_create_film ⟨s.films, s.next_film_id⟩ p.film_slug p.film_title
              none p.letterboxd_film_id p.release_year).2 p now]
      ∧ (new_rating_row uid 0 p now).rating = p.rating
      ∧ (new_rating_row uid 0 p now).liked = p.liked
      ∧ (new_rating_row uid 0 p now).favorite = p.favorite) := by
  set fid := (get_or_create_film ⟨s.films, s.next_film_id⟩ p.film_slug p.film_title
    none p.letterboxd_film_id p.release_year).2 with hfid
  have hrows : (upsert_one uid now s p).ratings
      = upsert_row_list s.ratings uid fid p now := rfl
  constructor
  · intro r hr
    have hkey : rating_key uid fid r = true := List.find?_some hr
    have hbranch : upsert_row_list s.ratings uid fid p now
        = s.ratings.map (fun x =>
            if rating_key uid fid x then upsert_rating_row x p now else x) := by
      unfold upsert_row_list
      rw [hr]
    refine ⟨?_, ?_, ?_, ?_, ?_, ?_⟩
    · rw [hrows, hbranch, List.length_map]
    · rw [hrows, hbranch, List.find?_map]
      have hcomp : ((rating_key uid fid) ∘ (fun x =>
          if rating_key uid fid x then upsert_rating_row x p now else x))
          = rating_key uid fid := by
        funext x
        by_cases hx : rating_key uid fid x
        · simp [Function.comp, hx, rating_key_upsert]
        · simp [Function.comp, hx]
      rw [hcomp, hr]
      simp [Option.map, hkey]
    · unfold upsert_rating_row
      cases p.rating <;> rfl
    · unfold upsert_rating_row
      cases p.rating <;> rfl
    · unfold upsert_rating_row
      cases p.rating <;> rfl
    · intro hsome
      unfold upsert_rating_row
      cases hp : p.rating with
      | none => rw [hp] at hsome; cases hsome
      | some v => rfl
  · intro hr
    have hbranch : upsert_row_list s.ratings uid fid p now
        = s.ratings ++ [new_rating_row uid fid p now] := by
      unfold upsert_row_list
      rw [hr]
    exact ⟨by rw [hrows, hbranch], rfl, rfl, rfl⟩

/-- Witness for C4 (amended) at a concrete state holding the (user 7, film 3)
row: a record with rating `5` overwrites rating and flags and stamps the
clock. -/
theorem c4_upsert_overwrite_amended_witness :
    (upsert_one 7 9
        ⟨[⟨3, "film-a", "Film A", none, none, none⟩], 4, [], 0,
          [⟨7, 3, some 2, false, false, 0⟩]⟩
        ⟨"film-a", "Film A", some 5, true, false, none, none⟩).ratings.find?
        (rating_key 7 3)
      = some ⟨7, 3, some 5, true, false, 9⟩ := by
  have h := (c4_upsert_overwrite_amended
    ⟨[⟨3, "film-a", "Film A", none, none, none⟩], 4, [], 0,
      [⟨7, 3, some 2, false, false, 0⟩]⟩ 7 9
    ⟨"film-a", "Film A", some 5, true, false, none, none⟩).1
    ⟨7, 3, some 2, false, false, 0⟩ rfl
  exact h.2.1

instance : IsTotal (CohortFilmStat × ℚ) bayesLe :=
  ⟨fun a b => le_total b.2 a.2⟩

instance : IsTrans (CohortFilmStat × ℚ) bayesLe :=
  ⟨fun _ _ _ hab hbc => le_trans hbc hab⟩

instance : IsTotal AffinityScored affinityLe := by
  constructor
  intro a b
  rcases lt_trichotomy a.score b.score with h | h | h
  · exact Or.inr (Or.inl h)
  · rcases le_total b.watchers a.watchers with hw | hw
    · exact Or.inl (Or.inr ⟨h, hw⟩)
    · exact Or.inr (Or.inr ⟨h.symm, hw⟩)
  · exact Or.inl (Or.inl h)

instance : IsTrans AffinityScored affinityLe := by
  constructor
  intro a b c hab hbc
  rcases hab with h1 | ⟨h1, hw1⟩
  · rcases hbc with h2 | ⟨h2, _⟩
    · exact Or.inl (lt_trans h2 h1)
    · exact Or.inl (h2 ▸ h1)
  · rcases hbc with h2 | ⟨h2, hw2⟩
    · exact Or.inl (h1 ▸ h2)
    · exact Or.inr ⟨h1.trans h2, le_trans hw2 hw1⟩

instance : IsTotal FilmInsight insightLe := by
  constructor
  intro a b
  cases hab : strLt a.bucket_label b.bucket_label with
  | true => exact Or.inl (Or.inl hab)
  | false =>
    cases hba : strLt b.bucket_label a.bucket_label with
    | true => exact Or.inr (Or.inl hba)
    | false =>
      have heq : a.bucket_label = b.bucket_label := strLt_total hab hba
      rcases lt_trichotomy a.rating_percentile b.rating_percentile with h | h | h
      · exact Or.inr (Or.inr ⟨heq.symm, Or.inl h⟩)
      · rcases le_total b.watchers_percentile a.watchers_percentile with hw | hw
        · exact Or.inl (Or.inr ⟨heq, Or.inr ⟨h, hw⟩⟩)
        · exact Or.inr (Or.inr ⟨heq.symm, Or.inr ⟨h.symm, hw⟩⟩)
      · exact Or.inl (Or.inr ⟨heq, Or.inl h⟩)

instance : IsTrans FilmInsight insightLe := by
  constructor
  intro a b c hab hbc
  rcases hab with h1 | ⟨h1, hr1⟩
  · rcases hbc with h2 | ⟨h2, _⟩
    · exact Or.inl (strLt_trans h1 h2)
    · exact Or.inl (h2 ▸ h1)
  · rcases hbc with h2 | ⟨h2, hr2⟩
    · exact Or.inl (h1 ▸ h2)
    · refine Or.inr ⟨h1.trans h2, ?_⟩
      rcases hr1 with h3 | ⟨h3, hw3⟩
      · rcases hr2 with h4 | ⟨h4, _⟩
        · exact Or.inl (lt_trans h4 h3)
        · exact Or.inl (h4 ▸ h3)
      · rcases hr2 with h4 | ⟨h4, hw4⟩
        · exact Or.inl (h3 ▸ h4)
        · exact Or.inr ⟨h3.trans h4, le_trans hw4 hw3⟩

theorem bayes_ranked_length (n : ℕ) (l : List (CohortFilmStat × ℚ)) :
    (bayes_ranked n l).length = l.length := by
  induction l generalizing n with
  | nil => rfl
  | cons e es ih => simp [bayes_ranked, ih]

theorem bayes_ranked_getD (n : ℕ) (l : List (CohortFilmStat × ℚ)) (i : ℕ)
    (hi : i < l.length) :
    (bayes_ranked n l).getD i default
      = ⟨(l.getD i default).1.film_id, (l.getD i default).2, n + i,
          (l.getD i default).1.watchers, (l.getD i default).1.avg_rating⟩ := by
  induction l generalizing n i with
  | nil => cases hi
  | cons e es ih =>
    cases i with
    | zero => simp [bayes_ranked, List.getD]
    | succ k =>
      have hk : k < es.length := by simpa using hi
      have := ih (n + 1) k hk
      simp only [bayes_ranked, List.getD_cons_succ]
      rw [this]
      congr 1
      omega

theorem bayes_ranked_mem {n : ℕ} {l : List (CohortFilmStat × ℚ)} {r : BayesianResult}
    (h : r ∈ bayes_ranked n l) :
    ∃ e ∈ l, r.film_id = e.1.film_id ∧ r.score = e.2
      ∧ r.watchers = e.1.watchers ∧ r.avg_rating = e.1.avg_rating := by
  induction l generalizing n with
  | nil => cases h
  | cons e es ih =>
    rcases List.mem_cons.mp h with rfl | h2
    · exact ⟨e, List.mem_cons_self e es, rfl, rfl, rfl, rfl⟩
    · obtain ⟨e2, he2, hf⟩ := ih h2
      exact ⟨e2, List.mem_cons_of_mem e he2, hf⟩

theorem affinity_ranked_length (n : ℕ) (l : List AffinityScored) :
    (affinity_ranked n l).length = l.length := by
  induction l generalizing n with
  | nil => rfl
  | cons e es ih => simp [affinity_ranked, ih]

theorem affinity_ranked_getD (n : ℕ) (l : List AffinityScored) (i : ℕ)
    (hi : i < l.length) :
    (affinity_ranked n l).getD i default
      = ⟨(l.getD i default).film_id, (l.getD i default).score, n + i,
          (l.getD i default).watchers, (l.getD i default).avg_rating,
          (l.getD i default).favorite_rate, (l.getD i default).like_rate,
          (l.getD i default).distribution_label,
          (l.getD i default).consensus_strength⟩ := by
  induction l generalizing n i with
  | nil => cases hi
  | cons e es ih =>
    cases i with
    | zero => simp [affinity_ranked, List.getD]
    | succ k =>
      have hk : k < es.length := by simpa using hi
      have := ih (n + 1) k hk
      simp only [affinity_ranked, List.getD_cons_succ]
      rw [this]
      congr 1
      omega

theorem affinity_ranked_mem {n : ℕ} {l : List AffinityScored} {r : AffinityResult}
    (h : r ∈ affinity_ranked n l) :
    ∃ e ∈ l, r.film_id = e.film_id ∧ r.score = e.score ∧ r.watchers = e.watchers := by
  induction l generalizing n with
  | nil => cases h
  | cons e es ih =>
    rcases List.mem_cons.mp h with rfl | h2
    · exact ⟨e, List.mem_cons_self e es, rfl, rfl, rfl⟩
    · obtain ⟨e2, he2, hf⟩ := ih h2
      exact ⟨e2, List.mem_cons_of_mem e he2, hf⟩

theorem getD_map_of_lt {α β : Type} (f : α → β)
    (l : List α) (i : ℕ) (hi : i < l.length) (d : α) (d2 : β) :
    (l.map f).getD i d2 = f (l.getD i d) := by
  induction l generalizing i with
  | nil => cases hi
  | cons a as ih =>
    cases i with
    | zero => simp [List.getD]
    | succ k =>
      have hk : k < as.length := by simpa using hi
      simp only [List.map_cons, List.getD_cons_succ]
      exact ih k hk

theorem z_scores_getD (sq : ℚ → ℚ) (xs : List ℚ) (i : ℕ) (hi : i < xs.length) :
    (z_scores sq xs).getD i 0 = spec_zscore sq (xs.getD i 0) xs := by
  unfold z_scores spec_zscore
  have h0 : ¬ xs.length = 0 := by omega
  simp only [h0, if_false]
  by_cases h1 : xs.length = 1
  · obtain ⟨x, rfl⟩ := List.length_eq_one.mp h1
    have hi0 : i = 0 := by omega
    subst hi0
    simp only [h1, if_true, List.getD]
    have hm : fmean [x] = x := by
      simp [fmean]
    by_cases hs : pstdev sq [x] = 0
    · simp [hs]
    · simp [hs, hm]
  · simp only [h1, if_false]
    by_cases hs : pstdev sq xs = 0
    · simp only [hs, if_true, if_pos rfl]
      have h2 : (xs.map (fun _ => (0:ℚ))).getD i 0 = 0 :=
        getD_map_of_lt (fun _ => (0:ℚ)) xs i hi 0 0
      simp [h2]
    · simp only [hs, if_false]
      have h2 := getD_map_of_lt (fun value => (value - fmean xs) / pstdev sq xs) xs i hi 0 0
      simp only [h2]

/-- C1.  The bayesian strategy scores every cohort aggregate row with
`(w/(w+m))*r + (m/(w+m))*c` (with `c` the cohort-wide average of film
averages), returns the results ordered by score descending with `rank` the
1-based position in that order, and at `w=10, r=4.0, c=3.0, m=50` the score is
`3.1667` within `1e-3`. -/
theorem c1_bayesian_shrinkage (table : List CohortFilmStat) (cohort_id m_value : ℕ)
    (hm : 0 < m_value) :
    (∀ res ∈ compute_bayesian table cohort_id m_value,
      ∃ row ∈ table, row.cohort_id = cohort_id ∧ res.film_id = row.film_id
        ∧ res.watchers = row.watchers
        ∧ (0 < row.watchers →
            res.score = ((row.watchers : ℚ) / ((row.watchers : ℚ) + (m_value : ℚ)))
                * row.avg_rating
              + ((m_value : ℚ) / ((row.watchers : ℚ) + (m_value : ℚ)))
                * cohort_avg table cohort_id))
    ∧ (∀ i j : ℕ, i < j → ∀ hj : j < (compute_bayesian table cohort_id m_value).length,
        ((compute_bayesian table cohort_id m_value).getD j default).score
          ≤ ((compute_bayesian table cohort_id m_value).getD i default).score)
    ∧ (∀ i : ℕ, i < (compute_bayesian table cohort_id m_value).length →
        ((compute_bayesian table cohort_id m_value).getD i default).rank = i + 1)
    ∧ |bayes_score 50 3 ⟨cohort_id, 1, 10, 4, 0, 0, 0, 0, 0, 0, 0, 0, 0, 0⟩ - 3.1667|
        < 1/1000 := by
  have hdef : compute_bayesian table cohort_id m_value
      = bayes_ranked 1 (List.insertionSort bayesLe
          ((bayes_rows table cohort_id).map
            (fun row => (row, bayes_score m_value (cohort_avg table cohort_id) row)))) := rfl
  set scoredL := (bayes_rows table cohort_id).map
    (fun row => (row, bayes_score m_value (cohort_avg table cohort_id) row)) with hscored
  have hlen : (compute_bayesian table cohort_id m_value).length
      = (List.insertionSort bayesLe scoredL).length := by
    rw [hdef, bayes_ranked_length]
  refine ⟨?_, ?_, ?_, ?_⟩
  · intro res hres
    rw [hdef] at hres
    obtain ⟨e, he, hfid, hscore, hw, ha⟩ := bayes_ranked_mem hres
    have he2 : e ∈ scoredL := ((List.perm_insertionSort bayesLe scoredL).mem_iff).mp he
    obtain ⟨row, hrow, heq⟩ := List.mem_map.mp he2
    have hmem : row ∈ table := (List.mem_filter.mp hrow).1
    have hcid : row.cohort_id = cohort_id := by
      have := (List.mem_filter.mp hrow).2
      simpa using this
    refine ⟨row, hmem, hcid, ?_, ?_, ?_⟩
    · rw [hfid, ← heq]
    · rw [hw, ← heq]
    · intro _
      rw [hscore, ← heq]
      rfl
  · intro i j hij hj
    have hsorted : List.Sorted bayesLe (List.insertionSort bayesLe scoredL) :=
      List.sorted_insertionSort bayesLe scoredL
    have hj2 : j < (List.insertionSort bayesLe scoredL).length := by
      rw [← hlen]; exact hj
    have hi2 : i < (List.insertionSort bayesLe scoredL).length := by omega
    have hrel := List.pairwise_iff_getElem.mp hsorted i j hi2 hj2 hij
    have hgi := bayes_ranked_getD 1 (List.insertionSort bayesLe scoredL) i hi2
    have hgj := bayes_ranked_getD 1 (List.insertionSort bayesLe scoredL) j hj2
    rw [hdef, hgi, hgj]
    show ((List.insertionSort bayesLe scoredL).getD j default).2
      ≤ ((List.insertionSort bayesLe scoredL).getD i default).2
    rw [List.getD_eq_getElem _ _ hi2, List.getD_eq_getElem _ _ hj2]
    exact hrel
  · intro i hi
    have hi2 : i < (List.insertionSort bayesLe scoredL).length := by
      rw [← hlen]; exact hi
    have hgi := bayes_ranked_getD 1 (List.insertionSort bayesLe scoredL) i hi2
    rw [hdef, hgi]
    show 1 + i = i + 1
    omega
  · rw [abs_sub_lt_iff]
    constructor <;> norm_num [bayes_score]

/-- Witness for C1: prior strength 50 is positive and the spec example value
is within tolerance. -/
theorem c1_bayesian_shrinkage_witness :
    (0 : ℕ) < 50
    ∧ |bayes_score 50 3 ⟨1, 1, 10, 4, 0, 0, 0, 0, 0, 0, 0, 0, 0, 0⟩ - 3.1667| < 1/1000 :=
  ⟨by decide, (c1_bayesian_shrinkage [] 1 50 (by decide)).2.2.2⟩

theorem affinity_scored_length (sq : ℚ → ℚ) (lg : ℕ → ℚ) (rows : List CohortFilmStat) :
    (affinity_scored sq lg rows).length = rows.length := by
  simp [affinity_scored]

/-- C3.  In the cohort-affinity result list, for every earlier/later pair the
earlier film either has the strictly higher score, or the scores are equal and
the earlier film has at least the later film's raw watcher count (descending
watcher tie-break); ranks are the 1-based positions. -/
theorem c3_affinity_tie_break (sq : ℚ → ℚ) (lg : ℕ → ℚ) (table : List CohortFilmStat)
    (cohort_id watchers_floor : ℕ) :
    (∀ i j : ℕ, i < j →
      j < (compute_cohort_affinity sq lg table cohort_id watchers_floor).length →
      (((compute_cohort_affinity sq lg table cohort_id watchers_floor).getD j default).score
          < ((compute_cohort_affinity sq lg table cohort_id watchers_floor).getD i default).score
        ∨ (((compute_cohort_affinity sq lg table cohort_id watchers_floor).getD i default).score
              = ((compute_cohort_affinity sq lg table cohort_id watchers_floor).getD j default).score
            ∧ ((compute_cohort_affinity sq lg table cohort_id watchers_floor).getD j default).watchers
              ≤ ((compute_cohort_affinity sq lg table cohort_id watchers_floor).getD i default).watchers)))
    ∧ (∀ i : ℕ, i < (compute_cohort_affinity sq lg table cohort_id watchers_floor).length →
        ((compute_cohort_affinity sq lg table cohort_id watchers_floor).getD i default).rank
          = i + 1) := by
  by_cases hre : (affinity_rows table cohort_id watchers_floor).isEmpty
  · have hdef : compute_cohort_affinity sq lg table cohort_id watchers_floor = [] := by
      unfold compute_cohort_affinity
      rw [if_pos hre]
    rw [hdef]
    refine ⟨fun i j _ hj => ?_, fun i hi => ?_⟩
    · simp at hj
    · simp at hi
  · have hdef : compute_cohort_affinity sq lg table cohort_id watchers_floor
        = affinity_ranked 1 (List.insertionSort affinityLe
            (affinity_scored sq lg (affinity_rows table cohort_id watchers_floor))) := by
      unfold compute_cohort_affinity
      rw [if_neg hre]
    set sortedL := List.insertionSort affinityLe
      (affinity_scored sq lg (affinity_rows table cohort_id watchers_floor)) with hsl
    have hlen : (compute_cohort_affinity sq lg table cohort_id watchers_floor).length
        = sortedL.length := by
      rw [hdef, affinity_ranked_length]
    constructor
    · intro i j hij hj
      have hsorted : List.Sorted affinityLe sortedL :=
        List.sorted_insertionSort affinityLe _
      have hj2 : j < sortedL.length := by rw [← hlen]; exact hj
      have hi2 : i < sortedL.length := by omega
      have hrel := List.pairwise_iff_getElem.mp hsorted i j hi2 hj2 hij
      have hgi := affinity_ranked_getD 1 sortedL i hi2
      have hgj := affinity_ranked_getD 1 sortedL j hj2
      rw [hdef, hgi, hgj]
      show (sortedL.getD j default).score < (sortedL.getD i default).score
        ∨ ((sortedL.getD i default).score = (sortedL.getD j default).score
            ∧ (sortedL.getD j default).watchers ≤ (sortedL.getD i default).watchers)
      rw [List.getD_eq_getElem _ _ hi2, List.getD_eq_getElem _ _ hj2]
      exact hrel
    · intro i hi
      have hi2 : i < sortedL.length := by rw [← hlen]; exact hi
      have hgi := affinity_ranked_getD 1 sortedL i hi2
      rw [hdef, hgi]
      show 1 + i = i + 1
      omega

/-- Witness for C3 on a two-film cohort whose scores tie (all z-scores vanish
for the constant-zero square root): the higher-watcher film precedes and ranks
run 1, 2. -/
theorem c3_affinity_tie_break_witness :
    (let out := compute_cohort_affinity (fun _ => 0) (fun _ => 0)
        [⟨1, 100, 20, 4, 0, 0, 0, 0, 0, 0, 0, 0, 0, 0⟩,
         ⟨1, 200, 10, 2, 0, 0, 0, 0, 0, 0, 0, 0, 0, 0⟩] 1 1
     (out.getD 1 default).score < (out.getD 0 default).score
      ∨ ((out.getD 0 default).score = (out.getD 1 default).score
          ∧ (out.getD 1 default).watchers ≤ (out.getD 0 default).watchers)) := by
  have hrows : affinity_rows
      [⟨1, 100, 20, 4, 0, 0, 0, 0, 0, 0, 0, 0, 0, 0⟩,
       ⟨1, 200, 10, 2, 0, 0, 0, 0, 0, 0, 0, 0, 0, 0⟩] 1 1
      = [⟨1, 100, 20, 4, 0, 0, 0, 0, 0, 0, 0, 0, 0, 0⟩,
         ⟨1, 200, 10, 2, 0, 0, 0, 0, 0, 0, 0, 0, 0, 0⟩] := rfl
  have hlen : (compute_cohort_affinity (fun _ => 0) (fun _ => 0)
      [⟨1, 100, 20, 4, 0, 0, 0, 0, 0, 0, 0, 0, 0, 0⟩,
       ⟨1, 200, 10, 2, 0, 0, 0, 0, 0, 0, 0, 0, 0, 0⟩] 1 1).length = 2 := by
    unfold compute_cohort_affinity
    rw [hrows]
    rw [if_neg (by decide)]
    rw [affinity_ranked_length, List.length_insertionSort, affinity_scored_length]
    rfl
  exact (c3_affinity_tie_break (fun _ => 0) (fun _ => 0)
    [⟨1, 100, 20, 4, 0, 0, 0, 0, 0, 0, 0, 0, 0, 0⟩,
     ⟨1, 200, 10, 2, 0, 0, 0, 0, 0, 0, 0, 0, 0, 0⟩] 1 1).1 0 1 (by decide)
    (by rw [hlen]; decide)

/-- C2.  Every film surviving the watchers floor is scored with the fixed
linear blend `0.35*ratingZ + 0.20*clampedWatcherZ + 0.25*favoriteRateZ +
0.10*likeRateZ + 0.10*distributionBonus + 0.10*consensusStrength`, where the
z-scores are taken over the surviving population, `clampedWatcherZ` is the
z-score of `log10(watchers)` clamped to at most `1`, and `consensusStrength`
is `clamp(highRatingPct - lowRatingPct, -1, 1)`; the ranking output carries
exactly these scores. -/
theorem c2_affinity_score_blend (sq : ℚ → ℚ) (lg : ℕ → ℚ) (table : List CohortFilmStat)
    (cohort_id watchers_floor : ℕ) :
    (∀ idx : ℕ, idx < (affinity_rows table cohort_id watchers_floor).length →
      ((affinity_scored sq lg (affinity_rows table cohort_id watchers_floor)).getD
          idx default).score
        = 0.35 * spec_zscore sq
            ((affinity_rows table cohort_id watchers_floor).getD idx default).avg_rating
            ((affinity_rows table cohort_id watchers_floor).map (fun r => r.avg_rating))
        + 0.20 * min (spec_zscore sq
            (lg ((affinity_rows table cohort_id watchers_floor).getD idx default).watchers)
            ((affinity_rows table cohort_id watchers_floor).map (fun r => lg r.watchers))) 1
        + 0.25 * spec_zscore sq
            (safe_ratio
              (((affinity_rows table cohort_id watchers_floor).getD idx default).favorites_count : ℚ)
              (((affinity_rows table cohort_id watchers_floor).getD idx default).watchers : ℚ))
            ((affinity_rows table cohort_id watchers_floor).map
              (fun r => safe_ratio (r.favorites_count : ℚ) (r.watchers : ℚ)))
        + 0.10 * spec_zscore sq
            (safe_ratio
              (((affinity_rows table cohort_id watchers_floor).getD idx default).likes_count : ℚ)
              (((affinity_rows table cohort_id watchers_floor).getD idx default).watchers : ℚ))
            ((affinity_rows table cohort_id watchers_floor).map
              (fun r => safe_ratio (r.likes_count : ℚ) (r.watchers : ℚ)))
        + 0.10 * (classify_row
            ((affinity_rows table cohort_id watchers_floor).getD idx default)).2
        + 0.10 * clampQ
            (((affinity_rows table cohort_id watchers_floor).getD idx default).high_rating_pct
              - ((affinity_rows table cohort_id watchers_floor).getD idx default).low_rating_pct)
            (-1) 1)
    ∧ (∀ res ∈ compute_cohort_affinity sq lg table cohort_id watchers_floor,
        ∃ e ∈ affinity_scored sq lg (affinity_rows table cohort_id watchers_floor),
          res.film_id = e.film_id ∧ res.score = e.score ∧ res.watchers = e.watchers) := by
  constructor
  · intro idx hidx
    set rows := affinity_rows table cohort_id watchers_floor with hrows
    have hmax : ∀ r ∈ rows, max 1 r.watchers = r.watchers := by
      intro r hr
      have hf := (List.mem_filter.mp hr).2
      have h2 := (Bool.and_eq_true _ _).mp hf
      have h3 : max 1 watchers_floor ≤ r.watchers := of_decide_eq_true h2.2
      have h4 : 1 ≤ r.watchers := le_trans (le_max_left 1 watchers_floor) h3
      exact max_eq_right h4
    have hmem : rows.getD idx default ∈ rows := by
      rw [List.getD_eq_getElem _ _ hidx]
      exact List.getElem_mem hidx
    have hidxr : (List.range rows.length).getD idx 0 = idx := by
      rw [List.getD_eq_getElem _ _ (by simpa using hidx), List.getElem_range]
    have hget : (affinity_scored sq lg rows).getD idx default
        = (fun i =>
            ({ film_id := (rows.getD i default).film_id
               score := 0.35 * (z_scores sq (rows.map (fun r => r.avg_rating))).getD i 0
                 + 0.20 * min ((z_scores sq (rows.map (fun r => lg (max 1 r.watchers)))).getD i 0) 1
                 + 0.25 * (z_scores sq (rows.map
                     (fun r => safe_ratio (r.favorites_count : ℚ) (r.watchers : ℚ)))).getD i 0
                 + 0.10 * (z_scores sq (rows.map
                     (fun r => safe_ratio (r.likes_count : ℚ) (r.watchers : ℚ)))).getD i 0
                 + 0.10 * (classify_row (rows.getD i default)).2
                 + 0.10 * clampQ ((rows.getD i default).high_rating_pct
                     - (rows.getD i default).low_rating_pct) (-1) 1
               watchers := (rows.getD i default).watchers
               avg_rating := (rows.getD i default).avg_rating
               favorite_rate := (rows.map
                 (fun r => safe_ratio (r.favorites_count : ℚ) (r.watchers : ℚ))).getD i 0
               like_rate := (rows.map
                 (fun r => safe_ratio (r.likes_count : ℚ) (r.watchers : ℚ))).getD i 0
               distribution_label := (classify_row (rows.getD i default)).1
               consensus_strength := clampQ ((rows.getD i default).high_rating_pct
                   - (rows.getD i default).low_rating_pct) (-1) 1 } : AffinityScored)) idx := by
      show ((List.range rows.length).map _).getD idx default = _
      rw [getD_map_of_lt _ (List.range rows.length) idx (by simpa using hidx) 0 default]
      rw [hidxr]
    rw [hget]
    show 0.35 * (z_scores sq (rows.map (fun r => r.avg_rating))).getD idx 0
        + 0.20 * min ((z_scores sq (rows.map (fun r => lg (max 1 r.watchers)))).getD idx 0) 1
        + 0.25 * (z_scores sq (rows.map
            (fun r => safe_ratio (r.favorites_count : ℚ) (r.watchers : ℚ)))).getD idx 0
        + 0.10 * (z_scores sq (rows.map
            (fun r => safe_ratio (r.likes_count : ℚ) (r.watchers : ℚ)))).getD idx 0
        + 0.10 * (classify_row (rows.getD idx default)).2
        + 0.10 * clampQ ((rows.getD idx default).high_rating_pct
            - (rows.getD idx default).low_rating_pct) (-1) 1
      = _
    have hpop : rows.map (fun r => lg (max 1 r.watchers)) = rows.map (fun r => lg r.watchers) :=
      List.map_congr_left (fun r hr => by rw [hmax r hr])
    have hz1 : (z_scores sq (rows.map (fun r => r.avg_rating))).getD idx 0
        = spec_zscore sq ((rows.getD idx default).avg_rating)
            (rows.map (fun r => r.avg_rating)) := by
      rw [z_scores_getD sq _ idx (by rw [List.length_map]; exact hidx),
        getD_map_of_lt _ rows idx hidx default 0]
    have hz2 : (z_scores sq (rows.map (fun r => lg (max 1 r.watchers)))).getD idx 0
        = spec_zscore sq (lg ((rows.getD idx default).watchers))
            (rows.map (fun r => lg r.watchers)) := by
      rw [z_scores_getD sq _ idx (by rw [List.length_map]; exact hidx),
        getD_map_of_lt _ rows idx hidx default 0, hmax _ hmem, hpop]
    have hz3 : (z_scores sq (rows.map
        (fun r => safe_ratio (r.favorites_count : ℚ) (r.watchers : ℚ)))).getD idx 0
        = spec_zscore sq (safe_ratio ((rows.getD idx default).favorites_count : ℚ)
            ((rows.getD idx default).watchers : ℚ))
            (rows.map (fun r => safe_ratio (r.favorites_count : ℚ) (r.watchers : ℚ))) := by
      rw [z_scores_getD sq _ idx (by rw [List.length_map]; exact hidx),
        getD_map_of_lt _ rows idx hidx default 0]
    have hz4 : (z_scores sq (rows.map
        (fun r => safe_ratio (r.likes_count : ℚ) (r.watchers : ℚ)))).getD idx 0
        = spec_zscore sq (safe_ratio ((rows.getD idx default).likes_count : ℚ)
            ((rows.getD idx default).watchers : ℚ))
            (rows.map (fun r => safe_ratio (r.likes_count : ℚ) (r.watchers : ℚ))) := by
      rw [z_scores_getD sq _ idx (by rw [List.length_map]; exact hidx),
        getD_map_of_lt _ rows idx hidx default 0]
    rw [hz1, hz2, hz3, hz4]
  · intro res hres
    by_cases hre : (affinity_rows table cohort_id watchers_floor).isEmpty
    · have hdef : compute_cohort_affinity sq lg table cohort_id watchers_floor = [] := by
        unfold compute_cohort_affinity
        rw [if_pos hre]
      rw [hdef] at hres
      cases hres
    · have hdef : compute_cohort_affinity sq lg table cohort_id watchers_floor
          = affinity_ranked 1 (List.insertionSort affinityLe
              (affinity_scored sq lg (affinity_rows table cohort_id watchers_floor))) := by
        unfold compute_cohort_affinity
        rw [if_neg hre]
      rw [hdef] at hres
      obtain ⟨e, he, hf⟩ := affinity_ranked_mem hres
      exact ⟨e, ((List.perm_insertionSort affinityLe _).mem_iff).mp he, hf⟩

/-- Witness for C2 on a one-film cohort with the constant-zero square root
and logarithm. -/
theorem c2_affinity_score_blend_witness :
    (0 < (affinity_rows [⟨1, 10, 5, 4, 0, 0, 0, 0, 0, 0, 0, 0, 0, 0⟩] 1 1).length)
    ∧ (let rows := affinity_rows [⟨1, 10, 5, 4, 0, 0, 0, 0, 0, 0, 0, 0, 0, 0⟩] 1 1
       ((affinity_scored (fun _ => 0) (fun _ => 0) rows).getD 0 default).score
        = 0.35 * spec_zscore (fun _ => 0) (rows.getD 0 default).avg_rating
            (rows.map (fun r => r.avg_rating))
        + 0.20 * min (spec_zscore (fun _ => 0) ((fun _ => (0:ℚ)) (rows.getD 0 default).watchers)
            (rows.map (fun r => (fun _ => (0:ℚ)) r.watchers))) 1
        + 0.25 * spec_zscore (fun _ => 0)
            (safe_ratio ((rows.getD 0 default).favorites_count : ℚ)
              ((rows.getD 0 default).watchers : ℚ))
            (rows.map (fun r => safe_ratio (r.favorites_count : ℚ) (r.watchers : ℚ)))
        + 0.10 * spec_zscore (fun _ => 0)
            (safe_ratio ((rows.getD 0 default).likes_count : ℚ)
              ((rows.getD 0 default).watchers : ℚ))
            (rows.map (fun r => safe_ratio (r.likes_count : ℚ) (r.watchers : ℚ)))
        + 0.10 * (classify_row (rows.getD 0 default)).2
        + 0.10 * clampQ ((rows.getD 0 default).high_rating_pct
            - (rows.getD 0 default).low_rating_pct) (-1) 1) :=
  ⟨by decide,
    (c2_affinity_score_blend (fun _ => 0) (fun _ => 0)
      [⟨1, 10, 5, 4, 0, 0, 0, 0, 0, 0, 0, 0, 0, 0⟩] 1 1).1 0 (by decide)⟩

theorem findIdx_go_cons {α : Type} (p : α → Bool) (a : α) (l : List α) (n : ℕ) :
    List.findIdx.go p (a :: l) n = cond (p a) n (List.findIdx.go p l (n + 1)) := rfl

theorem findIdx_go_nil {α : Type} (p : α → Bool) (n : ℕ) :
    List.findIdx.go p [] n = n := rfl

theorem derive_insights_three_films : derive_insights (fun _ => 0)
    [⟨1, "a", "A", none, 10, 4⟩, ⟨2, "b", "B", none, 5, 3⟩, ⟨3, "c", "C", none, 2, 2⟩]
    = [⟨1, "a", "A", 10, 4, 100, 100, 0, 0, "Elite acclaim", "Middle of the pack"⟩,
       ⟨2, "b", "B", 5, 3, 200/3, 200/3, 0, 0, "Steady performer", "Middle of the pack"⟩,
       ⟨3, "c", "C", 2, 2, 100/3, 100/3, 0, 0, "Steady performer", "Middle of the pack"⟩] := by
  have h10 : percentile_of [10, 5, 2] 10 = 100 := by
    norm_num [percentile_of, first_seen, last_seen, sortedQ, List.insertionSort,
      List.orderedInsert, List.indexOf, List.findIdx, findIdx_go_cons, findIdx_go_nil,
      Bool.cond_eq_ite, beq_iff_eq]
  have h5 : percentile_of [10, 5, 2] 5 = 200/3 := by
    norm_num [percentile_of, first_seen, last_seen, sortedQ, List.insertionSort,
      List.orderedInsert, List.indexOf, List.findIdx, findIdx_go_cons, findIdx_go_nil,
      Bool.cond_eq_ite, beq_iff_eq]
  have h2 : percentile_of [10, 5, 2] 2 = 100/3 := by
    norm_num [percentile_of, first_seen, last_seen, sortedQ, List.insertionSort,
      List.orderedInsert, List.indexOf, List.findIdx, findIdx_go_cons, findIdx_go_nil,
      Bool.cond_eq_ite, beq_iff_eq]
  have r4 : percentile_of [4, 3, 2] 4 = 100 := by
    norm_num [percentile_of, first_seen, last_seen, sortedQ, List.insertionSort,
      List.orderedInsert, List.indexOf, List.findIdx, findIdx_go_cons, findIdx_go_nil,
      Bool.cond_eq_ite, beq_iff_eq]
  have r3 : percentile_of [4, 3, 2] 3 = 200/3 := by
    norm_num [percentile_of, first_seen, last_seen, sortedQ, List.insertionSort,
      List.orderedInsert, List.indexOf, List.findIdx, findIdx_go_cons, findIdx_go_nil,
      Bool.cond_eq_ite, beq_iff_eq]
  have r2 : percentile_of [4, 3, 2] 2 = 100/3 := by
    norm_num [percentile_of, first_seen, last_seen, sortedQ, List.insertionSort,
      List.orderedInsert, List.indexOf, List.findIdx, findIdx_go_cons, findIdx_go_nil,
      Bool.cond_eq_ite, beq_iff_eq]
  have hrows : insight_rows
      [⟨1, "a", "A", none, 10, 4⟩, ⟨2, "b", "B", none, 5, 3⟩, ⟨3, "c", "C", none, 2, 2⟩]
      = [⟨1, "a", "A", none, 10, 4⟩, ⟨2, "b", "B", none, 5, 3⟩, ⟨3, "c", "C", none, 2, 2⟩] :=
    rfl
  unfold derive_insights
  rw [hrows]
  rw [if_neg (by decide)]
  norm_num [h10, h5, h2, r4, r3, r2, zscore_ml, pstdev, bucket_label, cluster_label,
    List.insertionSort, List.orderedInsert, insightLe, strLt, charListLt]
  all_goals (intro hfalse; exact absurd hfalse (by decide))

/-- Counterexample for C7: on three films bucketed `Elite acclaim`, `Steady
performer`, `Steady performer`, the code sorts the single-member `Elite
acclaim` group first (labels ascend alphabetically), while the claim demands
the two-member `Steady performer` group first (descending group size). -/
theorem c7_insight_ordering_counterexample :
    ¬ spec_c7_group_ordering (derive_insights (fun _ => 0)
      [⟨1, "a", "A", none, 10, 4⟩, ⟨2, "b", "B", none, 5, 3⟩,
       ⟨3, "c", "C", none, 2, 2⟩]) := by
  rw [derive_insights_three_films]
  intro h
  have h2 := h.2.1 0 1 (by decide) (by decide) (by decide)
  revert h2
  decide

theorem strLt_irrefl (a : String) : strLt a a = false :=
  charListLt_irrefl a.data

/-- C7 (amended).  The insight list is grouped contiguously by bucket label,
but groups appear in ascending code-point order of the label text — not in
descending order of group size; within a group insights are ordered by
descending rating percentile, ties broken by descending watcher percentile. -/
theorem c7_insight_ordering_amended (sq : ℚ → ℚ) (stats : List FilmStat) :
    (∀ i j : ℕ, i < j → j < (derive_insights sq stats).length →
      (strLt ((derive_insights sq stats).getD i default).bucket_label
          ((derive_insights sq stats).getD j default).bucket_label = true
        ∨ (((derive_insights sq stats).getD i default).bucket_label
              = ((derive_insights sq stats).getD j default).bucket_label
          ∧ (((derive_insights sq stats).getD j default).rating_percentile
                < ((derive_insights sq stats).getD i default).rating_percentile
            ∨ (((derive_insights sq stats).getD i default).rating_percentile
                  = ((derive_insights sq stats).getD j default).rating_percentile
              ∧ ((derive_insights sq stats).getD j default).watchers_percentile
                  ≤ ((derive_insights sq stats).getD i default).watchers_percentile)))))
    ∧ (∀ i j k : ℕ, i < j → j < k → k < (derive_insights sq stats).length →
        ((derive_insights sq stats).getD i default).bucket_label
          = ((derive_insights sq stats).getD k default).bucket_label →
        ((derive_insights sq stats).getD i default).bucket_label
          = ((derive_insights sq stats).getD j default).bucket_label) := by
  have hpair : ∀ i j : ℕ, i < j → j < (derive_insights sq stats).length →
      insightLe ((derive_insights sq stats).getD i default)
        ((derive_insights sq stats).getD j default) := by
    intro i j hij hj
    by_cases hre : (insight_rows stats).isEmpty
    · have hdef : derive_insights sq stats = [] := by
        unfold derive_insights
        rw [if_pos hre]
      rw [hdef] at hj
      simp at hj
    · have hdef : ∃ l, derive_insights sq stats = List.insertionSort insightLe l := by
        unfold derive_insights
        rw [if_neg hre]
        exact ⟨_, rfl⟩
      obtain ⟨l, hl⟩ := hdef
      have hsorted : List.Sorted insightLe (List.insertionSort insightLe l) :=
        List.sorted_insertionSort insightLe l
      rw [hl] at hj ⊢
      have hi2 : i < (List.insertionSort insightLe l).length := by omega
      have hrel := List.pairwise_iff_getElem.mp hsorted i j hi2 hj hij
      rw [List.getD_eq_getElem _ _ hi2, List.getD_eq_getElem _ _ hj]
      exact hrel
  constructor
  · intro i j hij hj
    exact hpair i j hij hj
  · intro i j k hij hjk hk hik
    have h1 := hpair i j hij (by omega)
    have h2 := hpair j k hjk hk
    rcases h1 with h1 | ⟨h1, _⟩
    · rcases h2 with h2 | ⟨h2, _⟩
      · exfalso
        have h3 := strLt_trans h1 h2
        rw [hik] at h3
        have h4 := strLt_asymm h3
        rw [h3] at h4
        cases h4
      · exfalso
        rw [h2, ← hik] at h1
        rw [strLt_irrefl] at h1
        cases h1
    · exact h1

/-- Witness for C7 (amended) on the three-film cohort: the first two entries
of the sorted insight list are related as stated. -/
theorem c7_insight_ordering_amended_witness :
    (let out := derive_insights (fun _ => 0)
      [⟨1, "a", "A", none, 10, 4⟩, ⟨2, "b", "B", none, 5, 3⟩, ⟨3, "c", "C", none, 2, 2⟩]
     strLt (out.getD 0 default).bucket_label (out.getD 1 default).bucket_label = true
      ∨ ((out.getD 0 default).bucket_label = (out.getD 1 default).bucket_label
        ∧ ((out.getD 1 default).rating_percentile < (out.getD 0 default).rating_percentile
          ∨ ((out.getD 0 default).rating_percentile = (out.getD 1 default).rating_percentile
            ∧ (out.getD 1 default).watchers_percentile
              ≤ (out.getD 0 default).watchers_percentile)))) := by
  have hlen : (derive_insights (fun _ => 0)
      [⟨1, "a", "A", none, 10, 4⟩, ⟨2, "b", "B", none, 5, 3⟩,
       ⟨3, "c", "C", none, 2, 2⟩]).length = 3 := by
    unfold derive_insights
    rw [show insight_rows
        [⟨1, "a", "A", none, 10, 4⟩, ⟨2, "b", "B", none, 5, 3⟩, ⟨3, "c", "C", none, 2, 2⟩]
      = [⟨1, "a", "A", none, 10, 4⟩, ⟨2, "b", "B", none, 5, 3⟩, ⟨3, "c", "C", none, 2, 2⟩]
      from rfl]
    rw [if_neg (by decide)]
    rw [List.length_insertionSort, List.length_map]
    rfl
  exact (c7_insight_ordering_amended (fun _ => 0)
    [⟨1, "a", "A", none, 10, 4⟩, ⟨2, "b", "B", none, 5, 3⟩, ⟨3, "c", "C", none, 2, 2⟩]).1
    0 1 (by decide) (by rw [hlen]; decide)

/-- Counterexample for C5: starting from a film `s` holding external id 7, the
batch `[(slug s, no id, rating 4), (slug t, id 7, rating 3)]` resolves both
records to that film on the first call (the second record renames its slug to
`t`), while the second call no longer finds slug `s`, creates a fresh film,
and inserts a second rating row: the rating-row count grows from 1 to 2. -/
theorem c5_idempotence_counterexample :
    (upsert_ratings
        ⟨[⟨1, "s", "T", none, some 7, none⟩], 2, [⟨1, "alice", none, none⟩], 2, []⟩
        "alice"
        [⟨"s", "T", some 4, false, false, none, none⟩,
         ⟨"t", "T", some 3, false, false, some 7, none⟩]
        true false none 11).ratings.length = 1
    ∧ (upsert_ratings
        (upsert_ratings
          ⟨[⟨1, "s", "T", none, some 7, none⟩], 2, [⟨1, "alice", none, none⟩], 2, []⟩
          "alice"
          [⟨"s", "T", some 4, false, false, none, none⟩,
           ⟨"t", "T", some 3, false, false, some 7, none⟩]
          true false none 11)
        "alice"
        [⟨"s", "T", some 4, false, false, none, none⟩,
         ⟨"t", "T", some 3, false, false, some 7, none⟩]
        true false none 22).ratings.length = 2
    ∧ (1 : ℕ) ≠ 2 := by
  exact ⟨rfl, rfl, by decide⟩

theorem find?_of_mem_unique {α : Type} (l : List α) (p : α → Bool) (a : α)
    (ha : a ∈ l) (hpa : p a = true) (huniq : ∀ b ∈ l, p b = true → b = a) :
    l.find? p = some a := by
  induction l with
  | nil => cases ha
  | cons x xs ih =>
    by_cases hx : p x = true
    · have : x = a := huniq x (List.mem_cons_self x xs) hx
      subst this
      simp [List.find?, hx]
    · have hxf : p x = false := by
        cases hb : p x
        · rfl
        · exact absurd hb hx
      simp only [List.find?, hxf]
      rcases List.mem_cons.mp ha with rfl | ha2
      · exact absurd hpa hx
      · exact ih ha2 (fun b hb hpb => huniq b (List.mem_cons_of_mem x hb) hpb)

theorem find_by_slug_slug {films : List Film} {s : String} {f : Film}
    (h : find_by_slug films s = some f) : f.slug = s := by
  have := List.find?_some h
  simpa using this

theorem find_by_lbid_lbid {films : List Film} {l : ℤ} {f : Film}
    (h : find_by_lbid films l = some f) : f.letterboxd_film_id = some l := by
  have := List.find?_some h
  simpa using this

theorem find_by_slug_of_mem {films : List Film} {f : Film}
    (hpw : films.Pairwise (fun a b => a.slug ≠ b.slug)) (hmem : f ∈ films) :
    find_by_slug films f.slug = some f := by
  apply find?_of_mem_unique films _ f hmem (by simp)
  intro b hb hpb
  have hbs : b.slug = f.slug := by simpa using hpb
  by_contra hne
  have hsymm : Symmetric (fun a b : Film => a.slug ≠ b.slug) := fun a b h e => h e.symm
  exact (List.Pairwise.forall hsymm hpw hb hmem hne) hbs

theorem find_by_lbid_of_mem {films : List Film} {f : Film} {l : ℤ}
    (hpw : films.Pairwise (fun a b => a.letterboxd_film_id = none
      ∨ b.letterboxd_film_id = none ∨ a.letterboxd_film_id ≠ b.letterboxd_film_id))
    (hmem : f ∈ films) (hl : f.letterboxd_film_id = some l) :
    find_by_lbid films l = some f := by
  apply find?_of_mem_unique films _ f hmem (by simp [hl])
  intro b hb hpb
  have hbs : b.letterboxd_film_id = some l := by simpa using hpb
  by_contra hne
  have hsymm : Symmetric (fun a b : Film => a.letterboxd_film_id = none
      ∨ b.letterboxd_film_id = none ∨ a.letterboxd_film_id ≠ b.letterboxd_film_id) := by
    intro a b h
    rcases h with h | h | h
    · exact Or.inr (Or.inl h)
    · exact Or.inl h
    · exact Or.inr (Or.inr (fun e => h e.symm))
  have := List.Pairwise.forall hsymm hpw hb hmem hne
  rcases this with h | h | h
  · rw [h] at hbs; cases hbs
  · rw [h] at hl; cases hl
  · rw [hbs, hl] at h; exact h rfl

theorem find_by_lbid_none {films : List Film} {l : ℤ}
    (h : find_by_lbid films l = none) :
    ∀ g ∈ films, g.letterboxd_film_id ≠ some l := by
  intro g hg
  have := List.find?_eq_none.mp h g hg
  simpa using this

theorem find_film_some_cases {films : List Film} {s : String} {lb : Option ℤ} {f : Film}
    (h : find_film films s lb = some f) :
    (∃ l, lb = some l ∧ f.letterboxd_film_id = some l)
    ∨ ((∀ l, lb = some l → find_by_lbid films l = none)
        ∧ s ≠ "" ∧ find_by_slug films s = some f) := by
  cases lb with
  | none =>
    have hd : find_film films s none = (if s ≠ "" then find_by_slug films s else none) := rfl
    rw [hd] at h
    by_cases hs : s ≠ ""
    · rw [if_pos hs] at h
      exact Or.inr ⟨(fun l hl => nomatch hl), hs, h⟩
    · rw [if_neg hs] at h
      cases h
  | some l =>
    have hd : find_film films s (some l)
        = (match find_by_lbid films l with
            | some f2 => some f2
            | none => if s ≠ "" then find_by_slug films s else none) := rfl
    rw [hd] at h
    cases hbl : find_by_lbid films l with
    | some f2 =>
      rw [hbl] at h
      injection h with h2
      subst h2
      exact Or.inl ⟨l, rfl, find_by_lbid_lbid hbl⟩
    | none =>
      rw [hbl] at h
      by_cases hs : s ≠ ""
      · rw [if_pos hs] at h
        have hnone : ∀ l2, (some l : Option ℤ) = some l2 → find_by_lbid films l2 = none := by
          intro l2 hl2
          injection hl2 with h3
          rw [← h3]
          exact hbl
        exact Or.inr ⟨hnone, hs, h⟩
      · rw [if_neg hs] at h
        cases h

theorem find_film_none_cases {films : List Film} {s : String} {lb : Option ℤ}
    (h : find_film films s lb = none) :
    (s ≠ "" → find_by_slug films s = none)
    ∧ (∀ l, lb = some l → find_by_lbid films l = none) := by
  cases lb with
  | none =>
    have hd : find_film films s none = (if s ≠ "" then find_by_slug films s else none) := rfl
    rw [hd] at h
    constructor
    · intro hs
      rw [if_pos hs] at h
      exact h
    · intro l hl
      cases hl
  | some l =>
    have hd : find_film films s (some l)
        = (match find_by_lbid films l with
            | some f2 => some f2
            | none => if s ≠ "" then find_by_slug films s else none) := rfl
    rw [hd] at h
    cases hbl : find_by_lbid films l with
    | some f2 =>
      rw [hbl] at h
      cases h
    | none =>
      refine ⟨?_, fun l2 hl2 => by injection hl2 with h3; rw [← h3]; exact hbl⟩
      intro hs
      rw [hbl, if_pos hs] at h
      exact h

theorem film_step_found (fs : FilmsState) (p : FilmRatingRec) (f : Film)
    (hf : find_film fs.films p.film_slug p.letterboxd_film_id = some f) :
    (film_step fs p).2 = f.id
    ∧ (film_step fs p).1.next_id = fs.next_id
    ∧ (film_step fs p).1.films
        = update_film fs.films (apply_film_metadata f p.film_slug p.film_title
            none p.letterboxd_film_id p.release_year) := by
  unfold film_step get_or_create_film
  rw [hf]
  exact ⟨rfl, rfl, rfl⟩

theorem film_step_none (fs : FilmsState) (p : FilmRatingRec)
    (hn : find_film fs.films p.film_slug p.letterboxd_film_id = none) :
    (film_step fs p).2 = fs.next_id
    ∧ (film_step fs p).1.next_id = fs.next_id + 1
    ∧ (film_step fs p).1.films
        = fs.films ++ [apply_film_metadata ⟨fs.next_id, p.film_slug, p.film_title,
            none, none, none⟩ p.film_slug p.film_title none p.letterboxd_film_id
            p.release_year] := by
  unfold film_step get_or_create_film
  rw [hn]
  exact ⟨rfl, rfl, rfl⟩

theorem truthyInt_some {l : ℤ} (hl : l ≠ 0) : truthyInt (some l) = true := by
  simp [truthyInt, hl]

theorem truthyInt_eq_true {x : Option ℤ} (h : truthyInt x = true) :
    ∃ l, x = some l ∧ l ≠ 0 := by
  cases x with
  | none => cases h
  | some l =>
    refine ⟨l, rfl, ?_⟩
    simpa [truthyInt] using h

theorem truthyInt_eq_false {x : Option ℤ} (h : truthyInt x = false) :
    x = none ∨ x = some 0 := by
  cases x with
  | none => exact Or.inl rfl
  | some l =>
    have : l = 0 := by simpa [truthyInt] using h
    exact Or.inr (by rw [this])

theorem wf_id_unique {films : List Film}
    (hpw : films.Pairwise (fun a b => a.id ≠ b.id)) {f g : Film}
    (hf : f ∈ films) (hg : g ∈ films) (h : g.id = f.id) : g = f := by
  by_contra hne
  have hsymm : Symmetric (fun a b : Film => a.id ≠ b.id) := fun a b h2 e => h2 e.symm
  exact (List.Pairwise.forall hsymm hpw hg hf hne) h

theorem film_step_facts (fs : FilmsState) (p : FilmRatingRec)
    (hwf : films_wf fs) (hok1 : p.film_slug ≠ "") (hok2 : p.letterboxd_film_id ≠ some 0)
    (hstab : ∀ f, find_film fs.films p.film_slug p.letterboxd_film_id = some f →
      f.slug = p.film_slug ∧ ∀ l, p.letterboxd_film_id = some l →
        f.letterboxd_film_id = none ∨ f.letterboxd_film_id = some l) :
    films_wf (film_step fs p).1
    ∧ films_ext fs (film_step fs p).1
    ∧ (∃ f2 ∈ (film_step fs p).1.films, f2.id = (film_step fs p).2
        ∧ f2.slug = p.film_slug
        ∧ ∀ l, p.letterboxd_film_id = some l → f2.letterboxd_film_id = some l) := by
  obtain ⟨hpwid, hpwslug, hzero, hpwlbid, hbound⟩ := hwf
  cases hf : find_film fs.films p.film_slug p.letterboxd_film_id with
  | some f =>
    obtain ⟨hsid, hsnext, hsfilms⟩ := film_step_found fs p f hf
    have hfm : f ∈ fs.films := find_film_mem hf
    obtain ⟨hfslug, hfconf⟩ := hstab f hf
    have hAid : (apply_film_metadata f p.film_slug p.film_title none
        p.letterboxd_film_id p.release_year).id = f.id :=
      apply_film_metadata_id _ _ _ _ _ _
    have hAslug : (apply_film_metadata f p.film_slug p.film_title none
        p.letterboxd_film_id p.release_year).slug = p.film_slug :=
      apply_film_metadata_slug _ _ _ _ _ _
    have hAl : (apply_film_metadata f p.film_slug p.film_title none
        p.letterboxd_film_id p.release_year).letterboxd_film_id
        = if truthyInt p.letterboxd_film_id && !truthyInt f.letterboxd_film_id
          then p.letterboxd_film_id else f.letterboxd_film_id :=
      apply_film_metadata_lbid _ _ _ _ _ _
    set A := apply_film_metadata f p.film_slug p.film_title none
      p.letterboxd_film_id p.release_year with hA
    have himg_eq : ∀ g ∈ fs.films,
        (if g.id == A.id then A else g) = (if g = f then A else g) := by
      intro g hg
      by_cases hgf : g = f
      · subst hgf
        simp [hAid]
      · have : (g.id == A.id) = false := by
          rw [hAid]
          by_contra hb
          have hbt : (g.id == f.id) = true := by
            cases hc : (g.id == f.id)
            · exact absurd hc hb
            · rfl
          exact hgf (wf_id_unique hpwid hfm hg (of_decide_eq_true hbt))
        rw [this, if_neg hgf]
        rfl
    have hmapform : (film_step fs p).1.films
        = fs.films.map (fun g => if g = f then A else g) := by
      rw [hsfilms]
      unfold update_film
      refine List.map_congr_left ?_
      intro g hg
      exact himg_eq g hg
    have himg_id : ∀ g ∈ fs.films, (if g = f then A else g).id = g.id := by
      intro g hg
      by_cases hgf : g = f
      · subst hgf
        rw [if_pos rfl, hAid]
      · rw [if_neg hgf]
    have himg_slug : ∀ g ∈ fs.films, (if g = f then A else g).slug = g.slug := by
      intro g hg
      by_cases hgf : g = f
      · subst hgf
        rw [if_pos rfl, hAslug, hfslug]
      · rw [if_neg hgf]
    have hfill_nohold : truthyInt p.letterboxd_film_id = true →
        truthyInt f.letterboxd_film_id = false →
        ∀ g ∈ fs.films, g.letterboxd_film_id ≠ p.letterboxd_film_id := by
      intro hpt hft g hg
      obtain ⟨l, hpl, hlne⟩ := truthyInt_eq_true hpt
      rcases find_film_some_cases hf with ⟨l2, hl2, hfl2⟩ | ⟨hnone, _, _⟩
      · rw [hpl] at hl2
        injection hl2 with h3
        subst h3
        rw [hfl2] at hft
        simp [truthyInt] at hft
        exact absurd hft hlne
      · have := find_by_lbid_none (hnone l hpl) g hg
        rw [hpl]
        exact this
    have himg_lbid : ∀ g ∈ fs.films,
        (if g = f then A else g).letterboxd_film_id = g.letterboxd_film_id
        ∨ (g = f ∧ g.letterboxd_film_id = none
            ∧ (if g = f then A else g).letterboxd_film_id = p.letterboxd_film_id
            ∧ ∀ g2 ∈ fs.films, g2.letterboxd_film_id ≠ p.letterboxd_film_id) := by
      intro g hg
      by_cases hgf : g = f
      · subst hgf
        rw [if_pos rfl, hAl]
        by_cases hcc : truthyInt p.letterboxd_film_id && !truthyInt g.letterboxd_film_id
        · have hp := (Bool.and_eq_true _ _).mp hcc
          have hgl : truthyInt g.letterboxd_film_id = false := by
            simpa using hp.2
          rcases truthyInt_eq_false hgl with hgn | hgz
          · exact Or.inr ⟨rfl, hgn, by rw [if_pos hcc], hfill_nohold hp.1 hgl⟩
          · exact absurd hgz (hzero g hg)
        · rw [if_neg hcc]
          exact Or.inl rfl
      · rw [if_neg hgf]
        exact Or.inl rfl
    refine ⟨⟨?_, ?_, ?_, ?_, ?_⟩, ?_, ?_⟩
    · rw [hmapform, List.pairwise_map]
      refine List.Pairwise.imp_of_mem ?_ hpwid
      intro a b ha hb hab
      rw [himg_id a ha, himg_id b hb]
      exact hab
    · rw [hmapform, List.pairwise_map]
      refine List.Pairwise.imp_of_mem ?_ hpwslug
      intro a b ha hb hab
      rw [himg_slug a ha, himg_slug b hb]
      exact hab
    · rw [hmapform]
      intro g2 hg2
      obtain ⟨g, hg, hgeq⟩ := List.mem_map.mp hg2
      rcases himg_lbid g hg with heq | ⟨_, _, heq, _⟩
      · rw [← hgeq, heq]
        exact hzero g hg
      · rw [← hgeq, heq]
        exact hok2
    · rw [hmapform, List.pairwise_map]
      refine List.Pairwise.imp_of_mem ?_ (hpwid.and hpwlbid)
      intro a b ha hb hab
      obtain ⟨habid, hablbid⟩ := hab
      rcases himg_lbid a ha with hea | ⟨haf, hna, hea, hnh⟩
      · rcases himg_lbid b hb with heb | ⟨hbf, hnb, heb, hnh2⟩
        · rw [hea, heb]
          exact hablbid
        · rw [hea, heb]
          right
          right
          intro hcontra
          exact (hnh2 a ha) hcontra
      · rcases himg_lbid b hb with heb | ⟨hbf, hnb, heb, hnh2⟩
        · rw [hea, heb]
          right
          right
          intro hcontra
          exact (hnh b hb) hcontra.symm
        · exfalso
          rw [haf, hbf] at habid
          exact habid rfl
    · rw [hmapform, hsnext]
      intro g2 hg2
      obtain ⟨g, hg, hgeq⟩ := List.mem_map.mp hg2
      rw [← hgeq, himg_id g hg]
      exact hbound g hg
    · intro g hg
      refine ⟨(if g = f then A else g), ?_, himg_id g hg, himg_slug g hg, ?_⟩
      · rw [hmapform]
        exact List.mem_map.mpr ⟨g, hg, rfl⟩
      · intro hgne
        rcases himg_lbid g hg with heq | ⟨_, hgn, _, _⟩
        · exact heq
        · exact absurd hgn hgne
    · refine ⟨(if f = f then A else f), ?_, ?_, ?_, ?_⟩
      · rw [hmapform]
        exact List.mem_map.mpr ⟨f, hfm, rfl⟩
      · rw [if_pos rfl, hAid, hsid]
      · rw [if_pos rfl, hAslug]
      · intro l hpl
        rw [if_pos rfl, hAl]
        have hlne : l ≠ 0 := by
          intro h0
          rw [h0] at hpl
          exact hok2 hpl
        by_cases hcc : truthyInt p.letterboxd_film_id && !truthyInt f.letterboxd_film_id
        · rw [if_pos hcc, hpl]
        · rw [if_neg hcc]
          have hpt : truthyInt p.letterboxd_film_id = true := by
            rw [hpl]
            exact truthyInt_some hlne
          have hft : truthyInt f.letterboxd_film_id = true := by
            by_contra hb
            have hff : truthyInt f.letterboxd_film_id = false := by
              cases hc : truthyInt f.letterboxd_film_id
              · rfl
              · exact absurd hc hb
            apply hcc
            rw [hpt, hff]
            rfl
          rcases hfconf l hpl with hn | hs
          · rw [hn] at hft
            cases hft
          · exact hs
  | none =>
    obtain ⟨hsid, hsnext, hsfilms⟩ := film_step_none fs p hf
    obtain ⟨hnoslug, hnolbid⟩ := find_film_none_cases hf
    have hCid : (apply_film_metadata ⟨fs.next_id, p.film_slug, p.film_title,
        none, none, none⟩ p.film_slug p.film_title none p.letterboxd_film_id
        p.release_year).id = fs.next_id :=
      apply_film_metadata_id _ _ _ _ _ _
    have hCslug : (apply_film_metadata ⟨fs.next_id, p.film_slug, p.film_title,
        none, none, none⟩ p.film_slug p.film_title none p.letterboxd_film_id
        p.release_year).slug = p.film_slug :=
      apply_film_metadata_slug _ _ _ _ _ _
    have hCl : (apply_film_metadata ⟨fs.next_id, p.film_slug, p.film_title,
        none, none, none⟩ p.film_slug p.film_title none p.letterboxd_film_id
        p.release_year).letterboxd_film_id
        = if truthyInt p.letterboxd_film_id then p.letterboxd_film_id else none := by
      have := apply_film_metadata_lbid ⟨fs.next_id, p.film_slug, p.film_title,
        none, none, none⟩ p.film_slug p.film_title none p.letterboxd_film_id
        p.release_year
      simpa [truthyInt] using this
    set C := apply_film_metadata ⟨fs.next_id, p.film_slug, p.film_title,
      none, none, none⟩ p.film_slug p.film_title none p.letterboxd_film_id
      p.release_year with hC
    have hslug_fresh : ∀ g ∈ fs.films, g.slug ≠ p.film_slug := by
      intro g hg
      have hn2 := hnoslug hok1
      have := List.find?_eq_none.mp hn2 g hg
      simpa using this
    have hid_fresh : ∀ g ∈ fs.films, g.id ≠ fs.next_id := by
      intro g hg
      have := hbound g hg
      omega
    have hlbid_fresh : truthyInt p.letterboxd_film_id = true →
        ∀ g ∈ fs.films, g.letterboxd_film_id ≠ p.letterboxd_film_id := by
      intro hpt g hg
      obtain ⟨l, hpl, _⟩ := truthyInt_eq_true hpt
      have := find_by_lbid_none (hnolbid l hpl) g hg
      rw [hpl]
      exact this
    refine ⟨⟨?_, ?_, ?_, ?_, ?_⟩, ?_, ?_⟩
    · rw [hsfilms]
      rw [List.pairwise_append]
      refine ⟨hpwid, List.pairwise_singleton _ _, ?_⟩
      intro a ha b hb
      rw [List.mem_singleton] at hb
      subst hb
      rw [hCid]
      exact hid_fresh a ha
    · rw [hsfilms]
      rw [List.pairwise_append]
      refine ⟨hpwslug, List.pairwise_singleton _ _, ?_⟩
      intro a ha b hb
      rw [List.mem_singleton] at hb
      subst hb
      rw [hCslug]
      exact hslug_fresh a ha
    · rw [hsfilms]
      intro g hg
      rcases List.mem_append.mp hg with hg2 | hg2
      · exact hzero g hg2
      · rw [List.mem_singleton] at hg2
        subst hg2
        rw [hCl]
        by_cases hpt : truthyInt p.letterboxd_film_id
        · rw [if_pos hpt]
          exact hok2
        · rw [if_neg hpt]
          intro hcon
          cases hcon
    · rw [hsfilms]
      rw [List.pairwise_append]
      refine ⟨hpwlbid, List.pairwise_singleton _ _, ?_⟩
      intro a ha b hb
      rw [List.mem_singleton] at hb
      subst hb
      rw [hCl]
      by_cases hpt : truthyInt p.letterboxd_film_id
      · rw [if_pos hpt]
        right
        right
        intro hcontra
        exact (hlbid_fresh hpt a ha) hcontra
      · rw [if_neg hpt]
        right
        left
        rfl
    · rw [hsfilms, hsnext]
      intro g hg
      rcases List.mem_append.mp hg with hg2 | hg2
      · have := hbound g hg2
        omega
      · rw [List.mem_singleton] at hg2
        subst hg2
        rw [hCid]
        omega
    · intro g hg
      refine ⟨g, ?_, rfl, rfl, fun _ => rfl⟩
      rw [hsfilms]
      exact List.mem_append.mpr (Or.inl hg)
    · refine ⟨C, ?_, ?_, hCslug, ?_⟩
      · rw [hsfilms]
        exact List.mem_append.mpr (Or.inr (List.mem_singleton.mpr rfl))
      · rw [hCid, hsid]
      · intro l hpl
        rw [hCl]
        have hlne : l ≠ 0 := by
          intro h0
          rw [h0] at hpl
          exact hok2 hpl
        have hpt : truthyInt p.letterboxd_film_id = true := by
          rw [hpl]
          exact truthyInt_some hlne
        rw [if_pos hpt, hpl]

theorem films_ext_refl (fs : FilmsState) : films_ext fs fs := by
  intro f hf
  exact ⟨f, hf, rfl, rfl, fun _ => rfl⟩

theorem films_ext_trans {a b c : FilmsState} (h1 : films_ext a b) (h2 : films_ext b c) :
    films_ext a c := by
  intro f hf
  obtain ⟨g, hg, hid, hslug, hl⟩ := h1 f hf
  obtain ⟨k, hk, hid2, hslug2, hl2⟩ := h2 g hg
  refine ⟨k, hk, hid2.trans hid, hslug2.trans hslug, ?_⟩
  intro hne
  have hgl : g.letterboxd_film_id = f.letterboxd_film_id := hl hne
  have hgne : g.letterboxd_film_id ≠ none := by rw [hgl]; exact hne
  rw [hl2 hgne, hgl]

theorem film_anchor_mono {a b : FilmsState} (hext : films_ext a b)
    {pr : ℕ × FilmRatingRec} (h : film_anchor a pr) : film_anchor b pr := by
  obtain ⟨f, hf, hid, hslug, hlb⟩ := h
  obtain ⟨g, hg, hid2, hslug2, hl2⟩ := hext f hf
  refine ⟨g, hg, hid2.trans hid, hslug2.trans hslug, ?_⟩
  intro l hl
  have hfl := hlb l hl
  have hgl : g.letterboxd_film_id = f.letterboxd_film_id := by
    apply hl2
    rw [hfl]
    simp
  rw [hgl, hfl]

theorem films_run_stable_cons {fs : FilmsState} {p : FilmRatingRec}
    {ps : List FilmRatingRec}
    (h : films_run_stable fs (p :: ps) = true) :
    (∀ f, find_film fs.films p.film_slug p.letterboxd_film_id = some f →
        f.slug = p.film_slug
        ∧ (!(truthyInt p.letterboxd_film_id && truthyInt f.letterboxd_film_id
              && (f.letterboxd_film_id != p.letterboxd_film_id))) = true)
    ∧ films_run_stable (film_step fs p).1 ps = true := by
  have hd : films_run_stable fs (p :: ps)
      = (match find_film fs.films p.film_slug p.letterboxd_film_id with
         | some f =>
           (f.slug == p.film_slug)
             && !(truthyInt p.letterboxd_film_id && truthyInt f.letterboxd_film_id
                   && (f.letterboxd_film_id != p.letterboxd_film_id))
             && films_run_stable (film_step fs p).1 ps
         | none => films_run_stable (film_step fs p).1 ps) := rfl
  rw [hd] at h
  cases hf : find_film fs.films p.film_slug p.letterboxd_film_id with
  | some f =>
    rw [hf] at h
    rw [Bool.and_eq_true, Bool.and_eq_true] at h
    refine ⟨?_, h.2⟩
    intro f2 hf2
    injection hf2 with he
    subst he
    refine ⟨?_, h.1.2⟩
    have := h.1.1
    simpa using this
  | none =>
    rw [hf] at h
    refine ⟨?_, h⟩
    intro f2 hf2
    cases hf2

theorem films_run_facts (rs : List FilmRatingRec) :
    ∀ fs : FilmsState, films_wf fs → records_ok rs →
      films_run_stable fs rs = true →
      films_wf (films_run fs rs)
      ∧ films_ext fs (films_run fs rs)
      ∧ ∀ pr ∈ (films_trace fs rs).zip rs, film_anchor (films_run fs rs) pr := by
  induction rs with
  | nil =>
    intro fs hwf _ _
    exact ⟨hwf, films_ext_refl fs, fun pr hpr => nomatch hpr⟩
  | cons p ps ih =>
    intro fs hwf hok hstab
    obtain ⟨hhead, hrest⟩ := films_run_stable_cons hstab
    have hok1 : p.film_slug ≠ "" := (hok p (List.mem_cons_self p ps)).1
    have hok2 : p.letterboxd_film_id ≠ some 0 := (hok p (List.mem_cons_self p ps)).2
    have hstab2 : ∀ f, find_film fs.films p.film_slug p.letterboxd_film_id = some f →
        f.slug = p.film_slug ∧ ∀ l, p.letterboxd_film_id = some l →
          f.letterboxd_film_id = none ∨ f.letterboxd_film_id = some l := by
      intro f hf
      obtain ⟨hs, hb⟩ := hhead f hf
      refine ⟨hs, ?_⟩
      intro l hl
      have hl0 : l ≠ 0 := fun h0 => hok2 (by rw [hl, h0])
      have hpt : truthyInt p.letterboxd_film_id = true := by
        rw [hl]
        exact truthyInt_some hl0
      cases hft : truthyInt f.letterboxd_film_id with
      | false =>
        rcases truthyInt_eq_false hft with hn | hz
        · exact Or.inl hn
        · exact absurd hz (hwf.2.2.1 f (find_film_mem hf))
      | true =>
        right
        rw [hpt, hft] at hb
        have hb2 : (f.letterboxd_film_id != p.letterboxd_film_id) = false := by
          simpa using hb
        have heq : f.letterboxd_film_id = p.letterboxd_film_id := by
          simpa using hb2
        rw [heq, hl]
    obtain ⟨hwf2, hext1, hanch⟩ := film_step_facts fs p hwf hok1 hok2 hstab2
    have hokt : records_ok ps := fun q hq => hok q (List.mem_cons_of_mem p hq)
    obtain ⟨hwf3, hext2, hanchs⟩ := ih (film_step fs p).1 hwf2 hokt hrest
    have hrun : films_run fs (p :: ps) = films_run (film_step fs p).1 ps := rfl
    refine ⟨by rw [hrun]; exact hwf3, ?_, ?_⟩
    · rw [hrun]
      exact films_ext_trans hext1 hext2
    · intro pr hpr
      have htr : films_trace fs (p :: ps)
          = (film_step fs p).2 :: films_trace (film_step fs p).1 ps := rfl
      rw [htr, List.zip_cons_cons] at hpr
      rcases List.mem_cons.mp hpr with rfl | hpr2
      · rw [hrun]
        exact film_anchor_mono hext2 hanch
      · rw [hrun]
        exact hanchs pr hpr2

theorem films_trace_replay (rs : List FilmRatingRec) :
    ∀ fs fs2 : FilmsState, films_wf fs2 → records_ok rs →
      (∀ pr ∈ (films_trace fs rs).zip rs, film_anchor fs2 pr) →
      films_trace fs2 rs = films_trace fs rs := by
  induction rs with
  | nil =>
    intro fs fs2 _ _ _
    rfl
  | cons p ps ih =>
    intro fs fs2 hwf2 hok hanch
    have htr : films_trace fs (p :: ps)
        = (film_step fs p).2 :: films_trace (film_step fs p).1 ps := rfl
    have hhead : film_anchor fs2 ((film_step fs p).2, p) := by
      apply hanch
      rw [htr, List.zip_cons_cons]
      exact List.mem_cons_self _ _
    obtain ⟨f2, hf2mem, hf2id, hf2slug, hf2lb⟩ := hhead
    have hok1 : p.film_slug ≠ "" := (hok p (List.mem_cons_self p ps)).1
    have hok2 : p.letterboxd_film_id ≠ some 0 := (hok p (List.mem_cons_self p ps)).2
    have hff : find_film fs2.films p.film_slug p.letterboxd_film_id = some f2 := by
      cases hlb : p.letterboxd_film_id with
      | some l =>
        have hfl : f2.letterboxd_film_id = some l := hf2lb l hlb
        have hbl := find_by_lbid_of_mem hwf2.2.2.2.1 hf2mem hfl
        have hd : find_film fs2.films p.film_slug (some l)
            = (match find_by_lbid fs2.films l with
                | some f3 => some f3
                | none => if p.film_slug ≠ "" then find_by_slug fs2.films p.film_slug
                          else none) := rfl
        rw [hd, hbl]
      | none =>
        have hbs := find_by_slug_of_mem hwf2.2.1 hf2mem
        rw [hf2slug] at hbs
        have hd : find_film fs2.films p.film_slug none
            = (if p.film_slug ≠ "" then find_by_slug fs2.films p.film_slug else none) := rfl
        rw [hd, if_pos hok1, hbs]
    have hid2 : (film_step fs2 p).2 = (film_step fs p).2 := by
      rw [(film_step_found fs2 p f2 hff).1, hf2id]
    have hstab2 : ∀ f, find_film fs2.films p.film_slug p.letterboxd_film_id = some f →
        f.slug = p.film_slug ∧ ∀ l, p.letterboxd_film_id = some l →
          f.letterboxd_film_id = none ∨ f.letterboxd_film_id = some l := by
      intro f hf
      rw [hff] at hf
      injection hf with he
      subst he
      exact ⟨hf2slug, fun l hl => Or.inr (hf2lb l hl)⟩
    obtain ⟨hwf3, hext, _⟩ := film_step_facts fs2 p hwf2 hok1 hok2 hstab2
    have hokt : records_ok ps := fun q hq => hok q (List.mem_cons_of_mem p hq)
    have hanchs : ∀ pr ∈ (films_trace (film_step fs p).1 ps).zip ps,
        film_anchor (film_step fs2 p).1 pr := by
      intro pr hpr
      apply film_anchor_mono hext
      apply hanch
      rw [htr, List.zip_cons_cons]
      exact List.mem_cons_of_mem _ hpr
    have htail := ih (film_step fs p).1 (film_step fs2 p).1 hwf3 hokt hanchs
    have htr2 : films_trace fs2 (p :: ps)
        = (film_step fs2 p).2 :: films_trace (film_step fs2 p).1 ps := rfl
    rw [htr2, htr, htail, hid2]

theorem upsert_row_user_id (r : RatingRow) (p : FilmRatingRec) (now : ℕ) :
    (upsert_rating_row r p now).user_id = r.user_id := by
  unfold upsert_rating_row
  cases p.rating <;> rfl

theorem upsert_row_film_id (r : RatingRow) (p : FilmRatingRec) (now : ℕ) :
    (upsert_rating_row r p now).film_id = r.film_id := by
  unfold upsert_rating_row
  cases p.rating <;> rfl

theorem upsert_row_liked (r : RatingRow) (p : FilmRatingRec) (now : ℕ) :
    (upsert_rating_row r p now).liked = p.liked := by
  unfold upsert_rating_row
  cases p.rating <;> rfl

theorem upsert_row_favorite (r : RatingRow) (p : FilmRatingRec) (now : ℕ) :
    (upsert_rating_row r p now).favorite = p.favorite := by
  unfold upsert_rating_row
  cases p.rating <;> rfl

theorem upsert_row_rating (r : RatingRow) (p : FilmRatingRec) (now : ℕ) :
    (upsert_rating_row r p now).rating
      = if p.rating.isSome then p.rating else r.rating := by
  cases hp : p.rating with
  | none => simp [upsert_rating_row, hp]
  | some v => simp [upsert_rating_row, hp]

theorem upd_one_user_id (uid fid now : ℕ) (p : FilmRatingRec) (r : RatingRow) :
    (upd_one uid fid now p r).user_id = r.user_id := by
  unfold upd_one
  by_cases hc : rating_key uid fid r = true
  · rw [if_pos hc, upsert_row_user_id]
  · rw [if_neg hc]

theorem upd_one_film_id (uid fid now : ℕ) (p : FilmRatingRec) (r : RatingRow) :
    (upd_one uid fid now p r).film_id = r.film_id := by
  unfold upd_one
  by_cases hc : rating_key uid fid r = true
  · rw [if_pos hc, upsert_row_film_id]
  · rw [if_neg hc]

theorem rating_key_upd_one (k1 k2 uid fid now : ℕ) (p : FilmRatingRec) (r : RatingRow) :
    rating_key k1 k2 (upd_one uid fid now p r) = rating_key k1 k2 r := by
  unfold rating_key
  rw [upd_one_user_id, upd_one_film_id]

theorem find?_map_eq {α : Type} (l : List α) (f : α → α) (q : α → Bool)
    (hpres : ∀ a, q (f a) = q a) :
    (l.map f).find? q = (l.find? q).map f := by
  induction l with
  | nil => rfl
  | cons x xs ih =>
    cases hx : q x with
    | true =>
      have hfx : q (f x) = true := by rw [hpres, hx]
      simp only [List.map_cons, List.find?, hfx, hx]
      rfl
    | false =>
      have hfx : q (f x) = false := by rw [hpres, hx]
      simp only [List.map_cons, List.find?, hfx, hx]
      exact ih

theorem find?_append_none {α : Type} (l1 l2 : List α) (q : α → Bool)
    (h : l1.find? q = none) : (l1 ++ l2).find? q = l2.find? q := by
  induction l1 with
  | nil => rfl
  | cons x xs ih =>
    have hall := List.find?_eq_none.mp h
    have hx : q x = false := by
      cases hq : q x
      · rfl
      · exact absurd hq (hall x (List.mem_cons_self x xs))
    have hxs : xs.find? q = none :=
      List.find?_eq_none.mpr (fun a ha => hall a (List.mem_cons_of_mem x ha))
    simp only [List.cons_append, List.find?, hx]
    exact ih hxs

theorem find?_append_single {α : Type} (l : List α) (b : α) (q : α → Bool)
    (hb : q b = false) : (l ++ [b]).find? q = l.find? q := by
  induction l with
  | nil => simp only [List.nil_append, List.find?, hb]
  | cons x xs ih =>
    cases hx : q x with
    | true => simp only [List.cons_append, List.find?, hx]
    | false =>
      simp only [List.cons_append, List.find?, hx]
      exact ih

theorem upsert_row_list_found {rows : List RatingRow} {uid fid : ℕ} {r0 : RatingRow}
    (hfind : rows.find? (rating_key uid fid) = some r0) (p : FilmRatingRec) (now : ℕ) :
    upsert_row_list rows uid fid p now = rows.map (upd_one uid fid now p) := by
  unfold upsert_row_list
  rw [hfind]
  rfl

theorem upsert_row_list_notfound {rows : List RatingRow} {uid fid : ℕ}
    (hfind : rows.find? (rating_key uid fid) = none) (p : FilmRatingRec) (now : ℕ) :
    upsert_row_list rows uid fid p now = rows ++ [new_rating_row uid fid p now] := by
  unfold upsert_row_list
  rw [hfind]

theorem upsert_row_list_find_same (rows : List RatingRow) (uid fid : ℕ)
    (p : FilmRatingRec) (now : ℕ) :
    (upsert_row_list rows uid fid p now).find? (rating_key uid fid)
      = some (match rows.find? (rating_key uid fid) with
              | some r => upsert_rating_row r p now
              | none => new_rating_row uid fid p now) := by
  cases hfind : rows.find? (rating_key uid fid) with
  | some r0 =>
    rw [upsert_row_list_found hfind p now]
    rw [find?_map_eq rows (upd_one uid fid now p) (rating_key uid fid)
        (fun a => rating_key_upd_one uid fid uid fid now p a)]
    rw [hfind]
    have hq0 : rating_key uid fid r0 = true := List.find?_some hfind
    show some (upd_one uid fid now p r0) = some (upsert_rating_row r0 p now)
    unfold upd_one
    rw [if_pos hq0]
  | none =>
    rw [upsert_row_list_notfound hfind p now,
        find?_append_none rows [new_rating_row uid fid p now] (rating_key uid fid) hfind]
    show [new_rating_row uid fid p now].find? (rating_key uid fid)
        = some (new_rating_row uid fid p now)
    have hnew : rating_key uid fid (new_rating_row uid fid p now) = true := by
      simp [rating_key, new_rating_row]
    simp [List.find?, hnew]

theorem upsert_row_list_find_other (rows : List RatingRow) (uid fid fid2 : ℕ)
    (p : FilmRatingRec) (now : ℕ) (hne : fid2 ≠ fid) :
    (upsert_row_list rows uid fid p now).find? (rating_key uid fid2)
      = rows.find? (rating_key uid fid2) := by
  cases hfind : rows.find? (rating_key uid fid) with
  | some r0 =>
    rw [upsert_row_list_found hfind p now]
    rw [find?_map_eq rows (upd_one uid fid now p) (rating_key uid fid2)
        (fun a => rating_key_upd_one uid fid2 uid fid now p a)]
    cases hf2 : rows.find? (rating_key uid fid2) with
    | none => rfl
    | some r1 =>
      show some (upd_one uid fid now p r1) = some r1
      have hk1 : rating_key uid fid2 r1 = true := List.find?_some hf2
      simp only [rating_key, Bool.and_eq_true, beq_iff_eq] at hk1
      have hk0 : rating_key uid fid r1 = false := by
        simp [rating_key, hk1.1, hk1.2, hne]
      simp [upd_one, hk0]
  | none =>
    rw [upsert_row_list_notfound hfind p now]
    apply find?_append_single
    simp only [rating_key, new_rating_row, Bool.and_eq_false_iff]
    right
    simp
    exact fun h => hne h.symm

theorem upsert_row_list_wf (rows : List RatingRow) (uid fid : ℕ) (p : FilmRatingRec)
    (now : ℕ) (hwf : ratings_wf rows) : ratings_wf (upsert_row_list rows uid fid p now) := by
  cases hfind : rows.find? (rating_key uid fid) with
  | some r0 =>
    rw [upsert_row_list_found hfind p now]
    unfold ratings_wf at hwf ⊢
    rw [List.pairwise_map]
    refine List.Pairwise.imp ?_ hwf
    intro a b hab
    rcases hab with h | h
    · left
      rw [upd_one_user_id, upd_one_user_id]
      exact h
    · right
      rw [upd_one_film_id, upd_one_film_id]
      exact h
  | none =>
    rw [upsert_row_list_notfound hfind p now]
    unfold ratings_wf at hwf ⊢
    rw [List.pairwise_append]
    refine ⟨hwf, List.pairwise_singleton _ _, ?_⟩
    intro a ha b hb
    rw [List.mem_singleton] at hb
    subst hb
    have hno := List.find?_eq_none.mp hfind a ha
    by_contra hcon
    push_neg at hcon
    apply hno
    simp only [new_rating_row] at hcon
    simp [rating_key, hcon.1, hcon.2]

theorem rating_run_wf (uid now : ℕ) (pairs : List (ℕ × FilmRatingRec)) :
    ∀ rows, ratings_wf rows → ratings_wf (rating_run uid now rows pairs) := by
  induction pairs with
  | nil =>
    intro rows h
    exact h
  | cons fp tl ih =>
    intro rows h
    exact ih _ (upsert_row_list_wf rows uid fp.1 fp.2 now h)

theorem key_fold_some (uid fid now : ℕ) (ps : List FilmRatingRec) :
    ∀ r : RatingRow, key_fold uid fid now (some r) ps = some (fold_upsert now r ps) := by
  induction ps with
  | nil =>
    intro r
    rfl
  | cons p tl ih =>
    intro r
    show key_fold uid fid now (some (upsert_rating_row r p now)) tl
        = some (fold_upsert now (upsert_rating_row r p now) tl)
    exact ih _

theorem key_fold_none_cons (uid fid now : ℕ) (p : FilmRatingRec)
    (tl : List FilmRatingRec) :
    key_fold uid fid now none (p :: tl)
      = some (fold_upsert now (new_rating_row uid fid p now) tl) := by
  show key_fold uid fid now (some (new_rating_row uid fid p now)) tl = _
  exact key_fold_some uid fid now tl _

theorem key_fold_isSome (uid fid now : ℕ) (init : Option RatingRow)
    (ps : List FilmRatingRec) (h : ps ≠ []) :
    (key_fold uid fid now init ps).isSome = true := by
  cases init with
  | some r =>
    rw [key_fold_some]
    rfl
  | none =>
    cases ps with
    | nil => exact absurd rfl h
    | cons p tl =>
      rw [key_fold_none_cons]
      rfl

theorem rating_run_find (uid fid now : ℕ) (pairs : List (ℕ × FilmRatingRec)) :
    ∀ rows : List RatingRow,
      (rating_run uid now rows pairs).find? (rating_key uid fid)
        = key_fold uid fid now (rows.find? (rating_key uid fid))
            ((pairs.filter (fun fp => fp.1 == fid)).map Prod.snd) := by
  induction pairs with
  | nil =>
    intro rows
    rfl
  | cons fp tl ih =>
    intro rows
    have hrun : rating_run uid now rows (fp :: tl)
        = rating_run uid now (upsert_row_list rows uid fp.1 fp.2 now) tl := rfl
    rw [hrun, ih]
    by_cases hc : fp.1 = fid
    · subst hc
      rw [upsert_row_list_find_same]
      have hfil : (fp :: tl).filter (fun gp => gp.1 == fp.1)
          = fp :: tl.filter (fun gp => gp.1 == fp.1) := by
        rw [List.filter_cons]
        simp
      rw [hfil, List.map_cons]
      cases hfind : rows.find? (rating_key uid fp.1) with
      | some r => rfl
      | none => rfl
    · rw [upsert_row_list_find_other rows uid fp.1 fid fp.2 now (fun h => hc h.symm)]
      have hfil : (fp :: tl).filter (fun gp => gp.1 == fid)
          = tl.filter (fun gp => gp.1 == fid) := by
        rw [List.filter_cons]
        simp [hc]
      rw [hfil]

theorem rating_run_all_found (uid now : ℕ) (pairs : List (ℕ × FilmRatingRec)) :
    ∀ rows : List RatingRow,
      (∀ fp ∈ pairs, (rows.find? (rating_key uid fp.1)).isSome = true) →
      rating_run uid now rows pairs
        = rows.map (fun r => fold_upsert now r
            ((pairs.filter (fun fp => rating_key uid fp.1 r)).map Prod.snd)) := by
  induction pairs with
  | nil =>
    intro rows _
    show rows = rows.map (fun r => r)
    exact (List.map_id rows).symm
  | cons fp tl ih =>
    intro rows hall
    have hsome := hall fp (List.mem_cons_self fp tl)
    cases hfind : rows.find? (rating_key uid fp.1) with
    | none =>
      rw [hfind] at hsome
      cases hsome
    | some r0 =>
      have hrun : rating_run uid now rows (fp :: tl)
          = rating_run uid now (upsert_row_list rows uid fp.1 fp.2 now) tl := rfl
      have hall2 : ∀ gp ∈ tl,
          (((rows.map (upd_one uid fp.1 now fp.2)).find? (rating_key uid gp.1)).isSome
            = true) := by
        intro gp hgp
        rw [find?_map_eq rows (upd_one uid fp.1 now fp.2) (rating_key uid gp.1)
            (fun a => rating_key_upd_one uid gp.1 uid fp.1 now fp.2 a)]
        cases hf2 : rows.find? (rating_key uid gp.1) with
        | none =>
          have := hall gp (List.mem_cons_of_mem fp hgp)
          rw [hf2] at this
          cases this
        | some r1 => rfl
      rw [hrun, upsert_row_list_found hfind fp.2 now, ih _ hall2, List.map_map]
      apply List.map_congr_left
      intro r hr
      have hkey : ∀ gp : ℕ × FilmRatingRec,
          rating_key uid gp.1 (upd_one uid fp.1 now fp.2 r) = rating_key uid gp.1 r :=
        fun gp => rating_key_upd_one uid gp.1 uid fp.1 now fp.2 r
      show fold_upsert now (upd_one uid fp.1 now fp.2 r)
          ((tl.filter (fun gp => rating_key uid gp.1 (upd_one uid fp.1 now fp.2 r))).map
            Prod.snd)
        = fold_upsert now r (((fp :: tl).filter (fun gp => rating_key uid gp.1 r)).map
            Prod.snd)
      have hfil : tl.filter (fun gp => rating_key uid gp.1 (upd_one uid fp.1 now fp.2 r))
          = tl.filter (fun gp => rating_key uid gp.1 r) :=
        List.filter_congr (fun gp _ => hkey gp)
      rw [hfil]
      by_cases hcr : rating_key uid fp.1 r = true
      · have h1 : upd_one uid fp.1 now fp.2 r = upsert_rating_row r fp.2 now := by
          unfold upd_one
          rw [if_pos hcr]
        have hfil2 : (fp :: tl).filter (fun gp => rating_key uid gp.1 r)
            = fp :: tl.filter (fun gp => rating_key uid gp.1 r) := by
          rw [List.filter_cons]
          simp [hcr]
        rw [h1, hfil2, List.map_cons]
        rfl
      · have h1 : upd_one uid fp.1 now fp.2 r = r := by
          unfold upd_one
          rw [if_neg hcr]
        have hfil2 : (fp :: tl).filter (fun gp => rating_key uid gp.1 r)
            = tl.filter (fun gp => rating_key uid gp.1 r) := by
          rw [List.filter_cons]
          simp [hcr]
        rw [h1, hfil2]

theorem ratings_find_of_mem {rows : List RatingRow} (hwf : ratings_wf rows)
    {r : RatingRow} (hr : r ∈ rows) :
    rows.find? (rating_key r.user_id r.film_id) = some r := by
  apply find?_of_mem_unique rows _ r hr (by simp [rating_key])
  intro b hb hpb
  simp only [rating_key, Bool.and_eq_true, beq_iff_eq] at hpb
  by_contra hne
  have hsymm : Symmetric
      (fun a b : RatingRow => a.user_id ≠ b.user_id ∨ a.film_id ≠ b.film_id) := by
    intro a b h
    rcases h with h | h
    · exact Or.inl (fun e => h e.symm)
    · exact Or.inr (fun e => h e.symm)
  rcases List.Pairwise.forall hsymm hwf hb hr hne with h | h
  · exact h hpb.1
  · exact h hpb.2

theorem fold_upsert_user_id (now : ℕ) (ps : List FilmRatingRec) :
    ∀ r, (fold_upsert now r ps).user_id = r.user_id := by
  induction ps with
  | nil =>
    intro r
    rfl
  | cons p tl ih =>
    intro r
    show (fold_upsert now (upsert_rating_row r p now) tl).user_id = r.user_id
    rw [ih (upsert_rating_row r p now), upsert_row_user_id]

theorem fold_upsert_film_id (now : ℕ) (ps : List FilmRatingRec) :
    ∀ r, (fold_upsert now r ps).film_id = r.film_id := by
  induction ps with
  | nil =>
    intro r
    rfl
  | cons p tl ih =>
    intro r
    show (fold_upsert now (upsert_rating_row r p now) tl).film_id = r.film_id
    rw [ih (upsert_rating_row r p now), upsert_row_film_id]

theorem fold_upsert_rating (now : ℕ) (ps : List FilmRatingRec) :
    ∀ r, (fold_upsert now r ps).rating = fold_rating r.rating ps := by
  induction ps with
  | nil =>
    intro r
    rfl
  | cons p tl ih =>
    intro r
    show (fold_upsert now (upsert_rating_row r p now) tl).rating
        = fold_rating r.rating (p :: tl)
    rw [ih (upsert_rating_row r p now), upsert_row_rating]
    rfl

theorem fold_upsert_flags (now now2 : ℕ) (ps : List FilmRatingRec) :
    ∀ (p : FilmRatingRec) (r r2 : RatingRow),
      (fold_upsert now r (p :: ps)).liked = (fold_upsert now2 r2 (p :: ps)).liked
      ∧ (fold_upsert now r (p :: ps)).favorite
          = (fold_upsert now2 r2 (p :: ps)).favorite := by
  induction ps with
  | nil =>
    intro p r r2
    constructor
    · show (upsert_rating_row r p now).liked = (upsert_rating_row r2 p now2).liked
      rw [upsert_row_liked, upsert_row_liked]
    · show (upsert_rating_row r p now).favorite = (upsert_rating_row r2 p now2).favorite
      rw [upsert_row_favorite, upsert_row_favorite]
  | cons q tl ih =>
    intro p r r2
    exact ih q (upsert_rating_row r p now) (upsert_rating_row r2 p now2)

theorem fold_rating_cases (ps : List FilmRatingRec) :
    (∀ x, fold_rating x ps = x) ∨ (∃ v, ∀ x, fold_rating x ps = v) := by
  induction ps with
  | nil => exact Or.inl (fun x => rfl)
  | cons p tl ih =>
    cases hp : p.rating.isSome with
    | true =>
      right
      refine ⟨fold_rating p.rating tl, ?_⟩
      intro x
      show fold_rating (if p.rating.isSome then p.rating else x) tl = _
      rw [if_pos hp]
    | false =>
      have hcons : ∀ x, fold_rating x (p :: tl) = fold_rating x tl := by
        intro x
        show fold_rating (if p.rating.isSome then p.rating else x) tl = _
        rw [if_neg (by simp [hp])]
      rcases ih with h | ⟨v, hv⟩
      · exact Or.inl (fun x => by rw [hcons x]; exact h x)
      · exact Or.inr ⟨v, fun x => by rw [hcons x]; exact hv x⟩

theorem fold_rating_idem (ps : List FilmRatingRec) (x : Option ℚ) :
    fold_rating (fold_rating x ps) ps = fold_rating x ps := by
  rcases fold_rating_cases ps with h | ⟨v, hv⟩
  · rw [h, h]
  · rw [hv, hv]

theorem key_fold_replay (uid fid now1 now2 : ℕ) (init : Option RatingRow)
    (ps : List FilmRatingRec) (hps : ps ≠ []) (r : RatingRow)
    (hr : key_fold uid fid now1 init ps = some r) :
    row_proj (fold_upsert now2 r ps) = row_proj r := by
  cases ps with
  | nil => exact absurd rfl hps
  | cons p tl =>
    have hrat : (fold_upsert now2 r (p :: tl)).rating = fold_rating r.rating (p :: tl) :=
      fold_upsert_rating now2 (p :: tl) r
    cases init with
    | some r0 =>
      rw [key_fold_some] at hr
      injection hr with he
      have hflag := fold_upsert_flags now2 now1 tl p r r0
      have hrat0 : r.rating = fold_rating r0.rating (p :: tl) := by
        rw [← he, fold_upsert_rating]
      unfold row_proj
      rw [fold_upsert_user_id, fold_upsert_film_id, hrat, hrat0,
          fold_rating_idem, hflag.1, hflag.2, he]
    | none =>
      rw [key_fold_none_cons] at hr
      injection hr with he
      have hrat0 : r.rating = fold_rating p.rating tl := by
        rw [← he, fold_upsert_rating]
        rfl
      have hrat2 : fold_rating r.rating (p :: tl) = r.rating := by
        show fold_rating (if p.rating.isSome then p.rating else r.rating) tl = r.rating
        by_cases hp : p.rating.isSome = true
        · rw [if_pos hp, hrat0]
        · rw [if_neg hp, hrat0, fold_rating_idem]
      have hflag : (fold_upsert now2 r (p :: tl)).liked = r.liked
          ∧ (fold_upsert now2 r (p :: tl)).favorite = r.favorite := by
        cases tl with
        | nil =>
          have hrl : r.liked = p.liked := by
            rw [← he]
            rfl
          have hrf : r.favorite = p.favorite := by
            rw [← he]
            rfl
          constructor
          · show (upsert_rating_row r p now2).liked = r.liked
            rw [upsert_row_liked, hrl]
          · show (upsert_rating_row r p now2).favorite = r.favorite
            rw [upsert_row_favorite, hrf]
        | cons q tl2 =>
          have h1 := fold_upsert_flags now2 now1 tl2 q (upsert_rating_row r p now2)
            (new_rating_row uid fid p now1)
          rw [he] at h1
          exact h1
      unfold row_proj
      rw [fold_upsert_user_id, fold_upsert_film_id, hrat, hrat2, hflag.1, hflag.2]

theorem upsert_fold_decomp (uid now : ℕ) (records : List FilmRatingRec) :
    ∀ S : DBState,
      records.foldl (upsert_one uid now) S
        = ⟨(films_run ⟨S.films, S.next_film_id⟩ records).films,
           (films_run ⟨S.films, S.next_film_id⟩ records).next_id,
           S.users, S.next_user_id,
           rating_run uid now S.ratings
             ((films_trace ⟨S.films, S.next_film_id⟩ records).zip records)⟩ := by
  induction records with
  | nil =>
    intro S
    rfl
  | cons p ps ih =>
    intro S
    rw [List.foldl_cons, ih (upsert_one uid now S p)]
    rfl

theorem touch_user_users (s : DBState) (uid : ℕ) (tf ti : Bool) (now : ℕ) :
    (touch_user s uid tf ti now).users = s.users.map (touch_fn uid tf ti now) := rfl

theorem touch_fn_username (uid : ℕ) (tf ti : Bool) (now : ℕ) (u : UserRow) :
    (touch_fn uid tf ti now u).username = u.username := by
  unfold touch_fn
  by_cases hc : (u.id == uid) = true
  · rw [if_pos hc]
  · rw [if_neg hc]

theorem touch_fn_id (uid : ℕ) (tf ti : Bool) (now : ℕ) (u : UserRow) :
    (touch_fn uid tf ti now u).id = u.id := by
  unfold touch_fn
  by_cases hc : (u.id == uid) = true
  · rw [if_pos hc]
  · rw [if_neg hc]

theorem get_or_create_user_found {s : DBState} {username : String} {u : UserRow}
    (h : s.users.find? (fun u2 => u2.username == username) = some u) :
    get_or_create_user s username = (s, u.id) := by
  unfold get_or_create_user
  rw [h]

theorem get_or_create_user_notfound {s : DBState} {username : String}
    (h : s.users.find? (fun u2 => u2.username == username) = none) :
    get_or_create_user s username
      = ({ s with
           users := s.users ++ [⟨s.next_user_id, username, none, none⟩],
           next_user_id := s.next_user_id + 1 }, s.next_user_id) := by
  unfold get_or_create_user
  rw [h]

theorem gocu_films (s : DBState) (username : String) :
    (get_or_create_user s username).1.films = s.films := by
  unfold get_or_create_user
  cases s.users.find? (fun u => u.username == username) <;> rfl

theorem gocu_next_film_id (s : DBState) (username : String) :
    (get_or_create_user s username).1.next_film_id = s.next_film_id := by
  unfold get_or_create_user
  cases s.users.find? (fun u => u.username == username) <;> rfl

theorem gocu_ratings (s : DBState) (username : String) :
    (get_or_create_user s username).1.ratings = s.ratings := by
  unfold get_or_create_user
  cases s.users.find? (fun u => u.username == username) <;> rfl

theorem get_or_create_user_replay (s : DBState) (username : String)
    (records : List FilmRatingRec) (tf ti : Bool) (now : ℕ) :
    get_or_create_user (upsert_ratings s username records tf ti none now) username
      = (upsert_ratings s username records tf ti none now,
         (get_or_create_user s username).2) := by
  have hd : upsert_ratings s username records tf ti none now
      = touch_user (records.foldl (upsert_one (get_or_create_user s username).2 now)
          (get_or_create_user s username).1) (get_or_create_user s username).2 tf ti now := rfl
  have hfu : (records.foldl (upsert_one (get_or_create_user s username).2 now)
      (get_or_create_user s username).1).users
      = (get_or_create_user s username).1.users := by
    rw [upsert_fold_decomp]
  have hu2 : (upsert_ratings s username records tf ti none now).users
      = ((get_or_create_user s username).1.users).map
          (touch_fn (get_or_create_user s username).2 tf ti now) := by
    rw [hd, touch_user_users, hfu]
  have hfind2 : (upsert_ratings s username records tf ti none now).users.find?
        (fun u2 => u2.username == username)
      = ((get_or_create_user s username).1.users.find?
          (fun u2 => u2.username == username)).map
          (touch_fn (get_or_create_user s username).2 tf ti now) := by
    rw [hu2]
    exact find?_map_eq _ _ _ (fun a => by rw [touch_fn_username])
  cases hfind : s.users.find? (fun u2 => u2.username == username) with
  | some u =>
    have hg := get_or_create_user_found hfind
    have hfS : (upsert_ratings s username records tf ti none now).users.find?
          (fun u2 => u2.username == username)
        = some (touch_fn u.id tf ti now u) := by
      rw [hfind2, hg]
      show (s.users.find? (fun u2 => u2.username == username)).map
          (touch_fn u.id tf ti now) = some (touch_fn u.id tf ti now u)
      rw [hfind]
      rfl
    rw [get_or_create_user_found hfS, hg, touch_fn_id]
  | none =>
    have hg := get_or_create_user_notfound hfind
    have hfS : (upsert_ratings s username records tf ti none now).users.find?
          (fun u2 => u2.username == username)
        = some (touch_fn s.next_user_id tf ti now ⟨s.next_user_id, username, none, none⟩) := by
      rw [hfind2, hg]
      show ((s.users ++ [(⟨s.next_user_id, username, none, none⟩ : UserRow)]).find?
            (fun u2 => u2.username == username)).map
          (touch_fn s.next_user_id tf ti now)
        = some (touch_fn s.next_user_id tf ti now ⟨s.next_user_id, username, none, none⟩)
      rw [find?_append_none s.users [⟨s.next_user_id, username, none, none⟩]
          (fun u2 => u2.username == username) hfind]
      simp [List.find?]
    rw [get_or_create_user_found hfS, hg, touch_fn_id]

/-- C5 (amended).  Calling `upsert_ratings` twice with the identical record
set leaves the rating-row count and the stored rating/liked/favorite field
values exactly as they were after the first call, provided the film and
rating tables are well-formed (unique ids, slugs, external ids; the ratings
unique constraint), the batch carries non-empty slugs and no zero external
ids, and the batch's film resolutions are stable: no record renames a found
film's slug and none conflicts with an already-set external id.  (The C5
counterexample is exactly a slug-renaming batch, so some such hypothesis is
necessary.) -/
theorem c5_idempotence_amended (s : DBState) (username : String)
    (records : List FilmRatingRec) (tf1 ti1 tf2 ti2 : Bool) (now1 now2 : ℕ)
    (hfwf : films_wf ⟨s.films, s.next_film_id⟩)
    (hrwf : ratings_wf s.ratings)
    (hok : records_ok records)
    (hstab : films_run_stable ⟨s.films, s.next_film_id⟩ records = true) :
    (upsert_ratings (upsert_ratings s username records tf1 ti1 none now1)
        username records tf2 ti2 none now2).ratings.length
      = (upsert_ratings s username records tf1 ti1 none now1).ratings.length
    ∧ (upsert_ratings (upsert_ratings s username records tf1 ti1 none now1)
        username records tf2 ti2 none now2).ratings.map row_proj
      = (upsert_ratings s username records tf1 ti1 none now1).ratings.map row_proj := by
  have hS1r : (upsert_ratings s username records tf1 ti1 none now1).ratings
      = rating_run (get_or_create_user s username).2 now1 s.ratings
          ((films_trace ⟨s.films, s.next_film_id⟩ records).zip records) := by
    show (records.foldl (upsert_one (get_or_create_user s username).2 now1)
        (get_or_create_user s username).1).ratings = _
    rw [upsert_fold_decomp]
    rw [gocu_ratings, gocu_films, gocu_next_film_id]
  have hS1f : (upsert_ratings s username records tf1 ti1 none now1).films
      = (films_run ⟨s.films, s.next_film_id⟩ records).films := by
    show (records.foldl (upsert_one (get_or_create_user s username).2 now1)
        (get_or_create_user s username).1).films = _
    rw [upsert_fold_decomp]
    rw [gocu_films, gocu_next_film_id]
  have hS1n : (upsert_ratings s username records tf1 ti1 none now1).next_film_id
      = (films_run ⟨s.films, s.next_film_id⟩ records).next_id := by
    show (records.foldl (upsert_one (get_or_create_user s username).2 now1)
        (get_or_create_user s username).1).next_film_id = _
    rw [upsert_fold_decomp]
    rw [gocu_films, gocu_next_film_id]
  have hrep := get_or_create_user_replay s username records tf1 ti1 now1
  have hS2r : (upsert_ratings (upsert_ratings s username records tf1 ti1 none now1)
        username records tf2 ti2 none now2).ratings
      = rating_run (get_or_create_user s username).2 now2
          (upsert_ratings s username records tf1 ti1 none now1).ratings
          ((films_trace ⟨(upsert_ratings s username records tf1 ti1 none now1).films,
            (upsert_ratings s username records tf1 ti1 none now1).next_film_id⟩
            records).zip records) := by
    show (records.foldl (upsert_one
        (get_or_create_user (upsert_ratings s username records tf1 ti1 none now1)
          username).2 now2)
        (get_or_create_user (upsert_ratings s username records tf1 ti1 none now1)
          username).1).ratings = _
    rw [hrep]
    show (records.foldl (upsert_one (get_or_create_user s username).2 now2)
        (upsert_ratings s username records tf1 ti1 none now1)).ratings = _
    rw [upsert_fold_decomp]
  have hfsr := films_run_facts records ⟨s.films, s.next_film_id⟩ hfwf hok hstab
  have htr_eq : films_trace ⟨(upsert_ratings s username records tf1 ti1 none now1).films,
        (upsert_ratings s username records tf1 ti1 none now1).next_film_id⟩ records
      = films_trace ⟨s.films, s.next_film_id⟩ records := by
    have hfs1 : (⟨(upsert_ratings s username records tf1 ti1 none now1).films,
          (upsert_ratings s username records tf1 ti1 none now1).next_film_id⟩ : FilmsState)
        = films_run ⟨s.films, s.next_film_id⟩ records := by
      rw [hS1f, hS1n]
    rw [hfs1]
    exact films_trace_replay records ⟨s.films, s.next_film_id⟩ _ hfsr.1 hok hfsr.2.2
  have hrows2 : (upsert_ratings (upsert_ratings s username records tf1 ti1 none now1)
        username records tf2 ti2 none now2).ratings
      = rating_run (get_or_create_user s username).2 now2
          (upsert_ratings s username records tf1 ti1 none now1).ratings
          ((films_trace ⟨s.films, s.next_film_id⟩ records).zip records) := by
    rw [hS2r, htr_eq]
  have hwf1 : ratings_wf (upsert_ratings s username records tf1 ti1 none now1).ratings := by
    rw [hS1r]
    exact rating_run_wf (get_or_create_user s username).2 now1 _ s.ratings hrwf
  have hall : ∀ fp ∈ (films_trace ⟨s.films, s.next_film_id⟩ records).zip records,
      (((upsert_ratings s username records tf1 ti1 none now1).ratings.find?
        (rating_key (get_or_create_user s username).2 fp.1)).isSome = true) := by
    intro fp hfp
    rw [hS1r, rating_run_find]
    apply key_fold_isSome
    have hmemf : fp ∈ ((films_trace ⟨s.films, s.next_film_id⟩ records).zip records).filter
        (fun gp => gp.1 == fp.1) :=
      List.mem_filter.mpr ⟨hfp, by simp⟩
    have hm2 : fp.2 ∈ (((films_trace ⟨s.films, s.next_film_id⟩ records).zip
        records).filter (fun gp => gp.1 == fp.1)).map Prod.snd :=
      List.mem_map.mpr ⟨fp, hmemf, rfl⟩
    exact List.ne_nil_of_mem hm2
  have hmap : (upsert_ratings (upsert_ratings s username records tf1 ti1 none now1)
        username records tf2 ti2 none now2).ratings
      = (upsert_ratings s username records tf1 ti1 none now1).ratings.map
          (fun r => fold_upsert now2 r
            ((((films_trace ⟨s.films, s.next_film_id⟩ records).zip records).filter
              (fun fp => rating_key (get_or_create_user s username).2 fp.1 r)).map
              Prod.snd)) := by
    rw [hrows2]
    exact rating_run_all_found (get_or_create_user s username).2 now2 _ _ hall
  have hmain : (upsert_ratings (upsert_ratings s username records tf1 ti1 none now1)
        username records tf2 ti2 none now2).ratings.map row_proj
      = (upsert_ratings s username records tf1 ti1 none now1).ratings.map row_proj := by
    rw [hmap, List.map_map]
    apply List.map_congr_left
    intro r hr
    show row_proj (fold_upsert now2 r
        ((((films_trace ⟨s.films, s.next_film_id⟩ records).zip records).filter
          (fun fp => rating_key (get_or_create_user s username).2 fp.1 r)).map Prod.snd))
      = row_proj r
    cases hps : (((films_trace ⟨s.films, s.next_film_id⟩ records).zip records).filter
        (fun fp => rating_key (get_or_create_user s username).2 fp.1 r)).map Prod.snd with
    | nil => rfl
    | cons q qs =>
      have hne : ((films_trace ⟨s.films, s.next_film_id⟩ records).zip records).filter
          (fun fp => rating_key (get_or_create_user s username).2 fp.1 r) ≠ [] := by
        intro h0
        rw [h0] at hps
        cases hps
      obtain ⟨fp0, hfp0⟩ := List.exists_mem_of_ne_nil _ hne
      have hfp0f := List.mem_filter.mp hfp0
      have hkey0 : r.user_id = (get_or_create_user s username).2 ∧ r.film_id = fp0.1 := by
        have hb := hfp0f.2
        simpa only [rating_key, Bool.and_eq_true, beq_iff_eq] using hb
      have hfind1 : (upsert_ratings s username records tf1 ti1 none now1).ratings.find?
          (rating_key (get_or_create_user s username).2 r.film_id) = some r := by
        have h0 := ratings_find_of_mem hwf1 hr
        rw [hkey0.1] at h0
        exact h0
      have hchar := rating_run_find (get_or_create_user s username).2 r.film_id now1
        ((films_trace ⟨s.films, s.next_film_id⟩ records).zip records) s.ratings
      rw [← hS1r, hfind1] at hchar
      have hfc : ((films_trace ⟨s.films, s.next_film_id⟩ records).zip records).filter
          (fun gp => gp.1 == r.film_id)
        = ((films_trace ⟨s.films, s.next_film_id⟩ records).zip records).filter
          (fun fp => rating_key (get_or_create_user s username).2 fp.1 r) := by
        apply List.filter_congr
        intro gp _
        show (gp.1 == r.film_id) = rating_key (get_or_create_user s username).2 gp.1 r
        unfold rating_key
        rw [hkey0.1]
        by_cases h : gp.1 = r.film_id
        · simp [h]
        · have h2 : r.film_id ≠ gp.1 := fun e => h e.symm
          simp [h, h2]
      rw [hfc, hps] at hchar
      exact key_fold_replay (get_or_create_user s username).2 r.film_id now1 now2
        (s.ratings.find? (rating_key (get_or_create_user s username).2 r.film_id))
        (q :: qs) (List.cons_ne_nil q qs) r hchar.symm
  refine ⟨?_, hmain⟩
  have hlen := congrArg List.length hmain
  simpa using hlen

theorem c5_idempotence_amended_witness :
    (upsert_ratings (upsert_ratings ⟨[], 1, [], 1, []⟩ "alice"
        [⟨"dune", "Dune", some 4, true, false, some 7, some 2021⟩] false false none 0)
        "alice" [⟨"dune", "Dune", some 4, true, false, some 7, some 2021⟩]
        false false none 1).ratings.length
      = (upsert_ratings ⟨[], 1, [], 1, []⟩ "alice"
          [⟨"dune", "Dune", some 4, true, false, some 7, some 2021⟩]
          false false none 0).ratings.length
    ∧ (upsert_ratings (upsert_ratings ⟨[], 1, [], 1, []⟩ "alice"
        [⟨"dune", "Dune", some 4, true, false, some 7, some 2021⟩] false false none 0)
        "alice" [⟨"dune", "Dune", some 4, true, false, some 7, some 2021⟩]
        false false none 1).ratings.map row_proj
      = (upsert_ratings ⟨[], 1, [], 1, []⟩ "alice"
          [⟨"dune", "Dune", some 4, true, false, some 7, some 2021⟩]
          false false none 0).ratings.map row_proj :=
  c5_idempotence_amended ⟨[], 1, [], 1, []⟩ "alice"
    [⟨"dune", "Dune", some 4, true, false, some 7, some 2021⟩] false false false false 0 1
    (by
      refine ⟨List.Pairwise.nil, List.Pairwise.nil, ?_, List.Pairwise.nil, ?_⟩ <;> simp)
    List.Pairwise.nil
    (by
      intro p hp
      rw [List.mem_singleton] at hp
      subst hp
      exact ⟨by decide, by decide⟩)
    (by decide)

end LetterboxdSpec
